import Mathlib

set_option maxRecDepth 100000

/-
Verification of the audio-analysis core of the spotify-visualizer repository.

Numbers are modelled as exact rationals. Each definition is a direct
translation of the corresponding TypeScript function; JavaScript loops become
structural recursion or folds, mutable fields become explicit state records.
-/

namespace SpotifyViz

/- ────────────────────────────────────────────────────────────────────────────
   Structural event synchronizer (src/hooks/useBeatSync.ts)
   ──────────────────────────────────────────────────────────────────────────── -/

namespace BeatSync

structure StructEvent where
  start : ℚ
  confidence : ℚ
deriving DecidableEq

structure AudioAnalysis where
  beats : List StructEvent
  bars : List StructEvent
  sections : List StructEvent
deriving DecidableEq

/-- The three last-fired indices plus the previous playback position,
mirroring prevPositionRef, lastBeatRef, lastBarRef, lastSectionRef. -/
structure SyncState where
  prevPosition : Option ℚ
  lastBeat : Int
  lastBar : Int
  lastSection : Int
deriving DecidableEq

/-- State after the reset effect that runs when the analysis tables change. -/
def resetState : SyncState := ⟨none, -1, -1, -1⟩

/-- Translation of eventsInWindow: all entries with start in (prevSec, curSec],
paired with their index in the table. -/
def eventsInWindow (arr : List StructEvent) (prevSec curSec : ℚ) :
    List (ℕ × StructEvent) :=
  arr.enum.filter fun p => decide (prevSec < p.2.start ∧ p.2.start ≤ curSec)

/-- Events fired by one synchronizer call. Beats carry their confidence. -/
structure Fired where
  beats : List (ℕ × ℚ)
  bars : List ℕ
  sections : List ℕ
deriving DecidableEq

def noFires : Fired := ⟨[], [], []⟩

/-- The beat-firing loop: fire each window event whose index differs from the
running last-fired index, updating that index as it goes. -/
def fireBeatsGo (last : Int) (acc : List (ℕ × ℚ)) :
    List (ℕ × StructEvent) → Int × List (ℕ × ℚ)
  | [] => (last, acc)
  | p :: rest =>
    if (p.1 : Int) ≠ last then fireBeatsGo (p.1 : Int) (acc ++ [(p.1, p.2.confidence)]) rest
    else fireBeatsGo last acc rest

/-- The bar/section firing loop (no confidence payload). -/
def fireIdxGo (last : Int) (acc : List ℕ) :
    List (ℕ × StructEvent) → Int × List ℕ
  | [] => (last, acc)
  | p :: rest =>
    if (p.1 : Int) ≠ last then fireIdxGo (p.1 : Int) (acc ++ [p.1]) rest
    else fireIdxGo last acc rest

/-- One call of the useBeatSync position effect, with (positionMs, isPlaying).
Mirrors the TypeScript effect body: missing analysis or paused playback is a
no-op; the previous position defaults to 0.2 s before the current one; a
backward jump of more than 0.5 s suppresses firing and re-anchors. -/
def step (analysis : Option AudioAnalysis) (positionMs : ℚ) (isPlaying : Bool)
    (st : SyncState) : SyncState × Fired :=
  match analysis with
  | none => (st, noFires)
  | some a =>
    if isPlaying = false then (st, noFires) else
    let curSec := positionMs / 1000
    let prevSec := st.prevPosition.getD (curSec - 1/5)
    if curSec < prevSec - 1/2 then
      ({ st with prevPosition := some curSec }, noFires)
    else
      let rb := fireBeatsGo st.lastBeat [] (eventsInWindow a.beats prevSec curSec)
      let rr := fireIdxGo st.lastBar [] (eventsInWindow a.bars prevSec curSec)
      let rs := fireIdxGo st.lastSection [] (eventsInWindow a.sections prevSec curSec)
      ({ prevPosition := some curSec, lastBeat := rb.1, lastBar := rr.1, lastSection := rs.1 },
       ⟨rb.2, rr.2, rs.2⟩)

/-- A sequence of synchronizer calls, collecting the events each call fired. -/
def run (analysis : Option AudioAnalysis) (calls : List (ℚ × Bool)) (st : SyncState) :
    SyncState × List Fired :=
  calls.foldl (fun acc c =>
    ((step analysis c.1 c.2 acc.1).1, acc.2 ++ [(step analysis c.1 c.2 acc.1).2]))
    (st, [])

/-- Modelled from the spec sentence for the synchronizer dispatch rule: walk the
window events in order and fire each one whose index differs from the running
last-fired index, updating that index after each fired event. -/
def specScan (last : Int) : List (ℕ × StructEvent) → List ℕ
  | [] => []
  | p :: rest =>
    if (p.1 : Int) ≠ last then p.1 :: specScan (p.1 : Int) rest
    else specScan last rest

/-- Beat table of the spec scenario: beats at 0.5 s, 1.0 s, 1.5 s. -/
def c5Beats : List StructEvent := [⟨1/2, 1⟩, ⟨1, 9/10⟩, ⟨3/2, 8/10⟩]

def c5Analysis : AudioAnalysis := ⟨c5Beats, [], []⟩

/-- Positions 0.0, 0.6, 1.2, 1.8 seconds, playing throughout (in ms). -/
def c5Calls : List (ℚ × Bool) := [(0, true), (600, true), (1200, true), (1800, true)]

end BeatSync

/- ────────────────────────────────────────────────────────────────────────────
   Live audio analyzer (src/three/liveAnalyzer.ts)
   ──────────────────────────────────────────────────────────────────────────── -/

namespace Analyzer

structure OnsetFlags where
  subBass : Bool
  bass : Bool
  mids : Bool
  highs : Bool
deriving DecidableEq

structure BeatInfo where
  fired : Bool
  confidence : ℚ
deriving DecidableEq

/-- The per-tick output record of LiveAnalyzer.tick. -/
structure LiveAnalysisFrame where
  subBass : ℚ
  bass : ℚ
  mids : ℚ
  highs : ℚ
  brilliance : ℚ
  rawMids : ℚ
  centroid : ℚ
  flux : ℚ
  rolloff : ℚ
  zcr : ℚ
  onsets : OnsetFlags
  onsetDensity : ℚ
  vocalDetected : Bool
  beat : BeatInfo
  bpm : Int
deriving DecidableEq

/-- The mutable fields of the LiveAnalyzer class that tick reads and writes. -/
structure AnalyzerState where
  smSubBass : ℚ
  smBass : ℚ
  smMids : ℚ
  smHighs : ℚ
  smBrilliance : ℚ
  smCentroid : ℚ
  smFlux : ℚ
  smRolloff : ℚ
  smZCR : ℚ
  onsetRollingSubBass : ℚ
  onsetRollingBass : ℚ
  onsetRollingMids : ℚ
  onsetRollingHighs : ℚ
  lastOnsetSubBass : ℚ
  lastOnsetBass : ℚ
  lastOnsetMids : ℚ
  lastOnsetHighs : ℚ
  onsetDensitySmooth : ℚ
  vocalMidsRolling : ℚ
  vocalBassHighRolling : ℚ
  rollingBass : ℚ
  lastBeatTime : ℚ
  beatIntervals : List ℚ
  bpm : Int
  prevData : Option (List ℕ)
  modeLive : Bool
deriving DecidableEq

/-- Field initial values of the LiveAnalyzer class. -/
def initState : AnalyzerState :=
  { smSubBass := 0, smBass := 0, smMids := 0, smHighs := 0, smBrilliance := 0,
    smCentroid := 1/2, smFlux := 0, smRolloff := 3/10, smZCR := 0,
    onsetRollingSubBass := 0, onsetRollingBass := 0,
    onsetRollingMids := 0, onsetRollingHighs := 0,
    lastOnsetSubBass := -1, lastOnsetBass := -1,
    lastOnsetMids := -1, lastOnsetHighs := -1,
    onsetDensitySmooth := 0,
    vocalMidsRolling := 0, vocalBassHighRolling := 0,
    rollingBass := 20, lastBeatTime := -1, beatIntervals := [], bpm := 120,
    prevData := none, modeLive := false }

/-- The five frequency bands of the accumulation loop, by the if-chain on hz. -/
inductive Band5 where
  | subBass
  | bass
  | mids
  | highs
  | brilliance
deriving DecidableEq

def bandOf (hz : ℚ) : Band5 :=
  if hz < 60 then .subBass
  else if hz < 250 then .bass
  else if hz < 2000 then .mids
  else if hz < 6000 then .highs
  else .brilliance

def hzPerBin (sampleRate : ℚ) (binCount : ℕ) : ℚ := sampleRate / 2 / binCount

/-- The magnitudes landing in one band, in bin order. -/
def bandVals (sr : ℚ) (data : List ℕ) (b : Band5) : List ℕ :=
  (data.enum.filter fun p =>
    decide (bandOf ((p.1 : ℚ) * hzPerBin sr data.length) = b)).map Prod.snd

def bandSum (sr : ℚ) (data : List ℕ) (b : Band5) : ℚ :=
  ((bandVals sr data b).map fun v : ℕ => (v : ℚ)).sum

def bandCount (sr : ℚ) (data : List ℕ) (b : Band5) : ℕ :=
  (bandVals sr data b).length

/-- Raw band average, 0 when the band holds no bins (the count guard). -/
def bandAvg (sr : ℚ) (data : List ℕ) (b : Band5) : ℚ :=
  if bandCount sr data b = 0 then 0 else bandSum sr data b / bandCount sr data b

/-- Normalised band value min(1, sum/count/255*amp), 0 when the band is empty. -/
def bandNorm (sr : ℚ) (data : List ℕ) (amp : ℚ) (b : Band5) : ℚ :=
  if bandCount sr data b = 0 then 0
  else min 1 (bandSum sr data b / bandCount sr data b / 255 * amp)

def totalMag (data : List ℕ) : ℚ := (data.map fun v : ℕ => (v : ℚ)).sum

def weightedBinSum (data : List ℕ) : ℚ :=
  (data.enum.map fun p => (p.1 : ℚ) * (p.2 : ℚ)).sum

/-- Previous-frame magnitude at bin i; 0 when no previous frame is stored. -/
def prevVal (prev : Option (List ℕ)) (i : ℕ) : ℚ :=
  match prev with
  | none => 0
  | some l => ((l.getD i 0 : ℕ) : ℚ)

/-- Half-wave rectified spectral flux sum. -/
def fluxSum (data : List ℕ) (prev : Option (List ℕ)) : ℚ :=
  (data.enum.map fun p => max 0 ((p.2 : ℚ) - prevVal prev p.1)).sum

/-- The rolloff scan: first bin index at which the running sum reaches the
target, 0 when the loop never breaks. -/
def rolloffGo (target : ℚ) : ℚ → ℕ → List ℕ → ℕ
  | _, _, [] => 0
  | acc, i, v :: rest =>
    if target ≤ acc + (v : ℚ) then i else rolloffGo target (acc + (v : ℚ)) (i + 1) rest

def rolloffBin (data : List ℕ) (target : ℚ) : ℕ := rolloffGo target 0 0 data

/-- Rolling onset average after one frame (retention 0.967). -/
def onsetRollingNext (rolling raw : ℚ) : ℚ :=
  rolling * (967/1000) + raw * (1 - 967/1000)

/-- The per-band onset test: raw above max(6, 1.5 times the updated rolling
average) and strictly more than 0.12 s since that band's last onset. -/
def onsetFlag (rolling lastOn raw wall : ℚ) : Bool :=
  decide (max 6 (onsetRollingNext rolling raw * (3/2)) < raw ∧ 12/100 < wall - lastOn)

def lastOnsetNext (rolling lastOn raw wall : ℚ) : ℚ :=
  if onsetFlag rolling lastOn raw wall then wall else lastOn

/-- JavaScript Math.round: floor of x + 1/2. -/
def jsRound (x : ℚ) : Int := Int.floor (x + 1/2)

structure BeatUpdate where
  rollingBass : ℚ
  lastBeatTime : ℚ
  beatIntervals : List ℚ
  bpm : Int
  fired : Bool
  confidence : ℚ
deriving DecidableEq

/-- Push a gap and drop the oldest entry once more than 8 are stored. -/
def beatIntervalsNext (intervals : List ℚ) (gap : ℚ) : List ℚ :=
  let pushed := intervals ++ [gap]
  if 8 < pushed.length then pushed.drop 1 else pushed

/-- The beat-detection block of tick, acting on the raw bass average. -/
def beatUpdate (rollingBass lastBeatTime : ℚ) (intervals : List ℚ) (bpm : Int)
    (bassAvg wall : ℚ) : BeatUpdate :=
  let rolling := rollingBass * (94/100) + bassAvg * (6/100)
  let threshold := max 6 (rolling * (14/10))
  if threshold < bassAvg ∧ (lastBeatTime < 0 ∨ (18/100) < wall - lastBeatTime) then
    let confidence := min 1 ((bassAvg - threshold) / max 1 threshold)
    if 0 ≤ lastBeatTime then
      let gap := wall - lastBeatTime
      if gap < 2 then
        let trimmed := beatIntervalsNext intervals gap
        if 2 ≤ trimmed.length then
          ⟨rolling, wall, trimmed, jsRound (60 / (trimmed.sum / trimmed.length)),
           true, confidence⟩
        else ⟨rolling, wall, trimmed, bpm, true, confidence⟩
      else ⟨rolling, wall, intervals, bpm, true, confidence⟩
    else ⟨rolling, wall, intervals, bpm, true, confidence⟩
  else ⟨rolling, lastBeatTime, intervals, bpm, false, 0⟩

/-- One call of LiveAnalyzer.tick. The data argument is none when no analyser
or data array is attached (the early zero-frame return); otherwise it is the
byte magnitude spectrum. -/
def tick (sr : ℚ) (dataOpt : Option (List ℕ)) (wall : ℚ) (s : AnalyzerState) :
    AnalyzerState × LiveAnalysisFrame :=
  match dataOpt with
  | none =>
    (s, { subBass := 0, bass := 0, mids := 0, highs := 0, brilliance := 0, rawMids := 0,
          centroid := s.smCentroid, flux := 0, rolloff := 3/10, zcr := 0,
          onsets := ⟨false, false, false, false⟩, onsetDensity := 0,
          vocalDetected := false, beat := ⟨false, 0⟩, bpm := s.bpm })
  | some data =>
    let binCount := data.length
    let amp : ℚ := if s.modeLive then 2 else 4
    let smSubBass := s.smSubBass * (85/100) + bandNorm sr data amp .subBass * (15/100)
    let smBass := s.smBass * (85/100) + bandNorm sr data amp .bass * (15/100)
    let smMids := s.smMids * (85/100) + bandNorm sr data amp .mids * (15/100)
    let smHighs := s.smHighs * (85/100) + bandNorm sr data amp .highs * (15/100)
    let smBrilliance := s.smBrilliance * (85/100) + bandNorm sr data amp .brilliance * (15/100)
    let rawCentroid :=
      if 0 < totalMag data then weightedBinSum data / totalMag data / binCount else 0
    let smCentroid := s.smCentroid * (88/100) + rawCentroid * (12/100)
    let rawFlux := fluxSum data s.prevData / (binCount * 255)
    let smFlux := s.smFlux * (70/100) + rawFlux * (30/100)
    let rawRolloff :=
      if 0 < binCount then (rolloffBin data (totalMag data * (85/100)) : ℚ) / binCount else 0
    let smRolloff := s.smRolloff * (90/100) + rawRolloff * (10/100)
    let avgTotal := totalMag data / binCount
    let rawZCR := if 0 < avgTotal then min 1 (bandAvg sr data .brilliance / avgTotal * 3) else 0
    let smZCR := s.smZCR * (88/100) + rawZCR * (12/100)
    let rawSub := bandAvg sr data .subBass
    let rawBas := bandAvg sr data .bass
    let rawMid := bandAvg sr data .mids
    let rawHig := bandAvg sr data .highs
    let oSubBass := onsetFlag s.onsetRollingSubBass s.lastOnsetSubBass rawSub wall
    let oBass := onsetFlag s.onsetRollingBass s.lastOnsetBass rawBas wall
    let oMids := onsetFlag s.onsetRollingMids s.lastOnsetMids rawMid wall
    let oHighs := onsetFlag s.onsetRollingHighs s.lastOnsetHighs rawHig wall
    let anyOnset := oSubBass || oBass || oMids || oHighs
    let onsetDensitySmooth :=
      s.onsetDensitySmooth * (992/1000) + (if anyOnset then 1 else 0) * (8/1000)
    let vocalMidsRolling := s.vocalMidsRolling * (967/1000) + rawMid * (1 - 967/1000)
    let vocalBassHighRolling :=
      s.vocalBassHighRolling * (967/1000) + (rawBas + rawHig) * (1/2) * (1 - 967/1000)
    let vocalDetected :=
      decide (vocalBassHighRolling * (3/2) < vocalMidsRolling ∧ 4 < vocalMidsRolling)
    let bu := beatUpdate s.rollingBass s.lastBeatTime s.beatIntervals s.bpm rawBas wall
    ({ smSubBass := smSubBass, smBass := smBass, smMids := smMids, smHighs := smHighs,
       smBrilliance := smBrilliance, smCentroid := smCentroid, smFlux := smFlux,
       smRolloff := smRolloff, smZCR := smZCR,
       onsetRollingSubBass := onsetRollingNext s.onsetRollingSubBass rawSub,
       onsetRollingBass := onsetRollingNext s.onsetRollingBass rawBas,
       onsetRollingMids := onsetRollingNext s.onsetRollingMids rawMid,
       onsetRollingHighs := onsetRollingNext s.onsetRollingHighs rawHig,
       lastOnsetSubBass := lastOnsetNext s.onsetRollingSubBass s.lastOnsetSubBass rawSub wall,
       lastOnsetBass := lastOnsetNext s.onsetRollingBass s.lastOnsetBass rawBas wall,
       lastOnsetMids := lastOnsetNext s.onsetRollingMids s.lastOnsetMids rawMid wall,
       lastOnsetHighs := lastOnsetNext s.onsetRollingHighs s.lastOnsetHighs rawHig wall,
       onsetDensitySmooth := onsetDensitySmooth,
       vocalMidsRolling := vocalMidsRolling,
       vocalBassHighRolling := vocalBassHighRolling,
       rollingBass := bu.rollingBass, lastBeatTime := bu.lastBeatTime,
       beatIntervals := bu.beatIntervals, bpm := bu.bpm,
       prevData := some data, modeLive := s.modeLive },
     { subBass := smSubBass, bass := smBass, mids := smMids, highs := smHighs,
       brilliance := smBrilliance, rawMids := bandNorm sr data amp .mids,
       centroid := smCentroid, flux := smFlux, rolloff := smRolloff, zcr := smZCR,
       onsets := ⟨oSubBass, oBass, oMids, oHighs⟩,
       onsetDensity := onsetDensitySmooth,
       vocalDetected := vocalDetected,
       beat := ⟨bu.fired, bu.confidence⟩, bpm := bu.bpm })

/-- Iterated tick over a stream of (data, wall time) inputs. -/
def tickStates (sr : ℚ) (seq : ℕ → List ℕ × ℚ) (s : AnalyzerState) : ℕ → AnalyzerState
  | 0 => s
  | n + 1 => (tick sr (some (seq n).1) (seq n).2 (tickStates sr seq s n)).1

/-- The ten EMA-smoothed scalars of the analyzer paired with their retention. -/
def smoothedRetentions : List ((AnalyzerState → ℚ) × ℚ) :=
  [(fun s => s.smSubBass, 85/100), (fun s => s.smBass, 85/100),
   (fun s => s.smMids, 85/100), (fun s => s.smHighs, 85/100),
   (fun s => s.smBrilliance, 85/100), (fun s => s.smCentroid, 88/100),
   (fun s => s.smRolloff, 90/100), (fun s => s.smZCR, 88/100),
   (fun s => s.smFlux, 70/100), (fun s => s.onsetDensitySmooth, 992/1000)]

/-- Scenario spectrum for concrete analyzer runs: 8 bins at full magnitude,
sample rate 160 Hz so that bins 0-5 are sub-bass and bins 6-7 are bass. -/
def fullData8 : List ℕ := List.replicate 8 255

/-- Tick inputs firing a maximal spectrum every 0.5 s starting at 0.5 s. -/
def halfSecondSeq : ℕ → List ℕ × ℚ := fun n => (fullData8, ((n : ℚ) + 1) / 2)

end Analyzer

/- ────────────────────────────────────────────────────────────────────────────
   Audio profile classifier (src/three/audioProfile.ts)
   ──────────────────────────────────────────────────────────────────────────── -/

namespace Profile

open Analyzer (LiveAnalysisFrame)

inductive ProfileType where
  | heavy
  | ambient
  | rhythmic
  | acoustic
  | chaotic
deriving DecidableEq

/-- The fixed 11-parameter visual target table of one archetype. -/
structure ProfileDef where
  hue1 : ℚ
  hue2 : ℚ
  hue3 : ℚ
  roughness : ℚ
  displacementScale : ℚ
  bloomStrength : ℚ
  chromaAmount : ℚ
  grainAmount : ℚ
  particleVelocity : ℚ
  particleOpacity : ℚ
  cameraShake : ℚ
deriving DecidableEq

def PROFILE_DEFS : ProfileType → ProfileDef
  | .heavy =>
    ⟨2/100, 7/100, 97/100, 85/100, 135/100, 22/10, 7/1000, 13/100, 80/100, 85/100, 12/1000⟩
  | .ambient =>
    ⟨62/100, 72/100, 55/100, 8/100, 65/100, 18/10, 3/1000, 4/100, 15/100, 40/100, 0⟩
  | .rhythmic =>
    ⟨47/100, 88/100, 50/100, 40/100, 105/100, 25/10, 8/1000, 6/100, 65/100, 75/100, 5/1000⟩
  | .acoustic =>
    ⟨10/100, 28/100, 14/100, 18/100, 80/100, 14/10, 4/1000, 10/100, 25/100, 55/100, 0⟩
  | .chaotic =>
    ⟨95/100, 50/100, 25/100, 1, 155/100, 3, 14/1000, 16/100, 120/100, 90/100, 20/1000⟩

/-- Object.keys order of PROFILE_DEFS. -/
def PROFILE_KEYS : List ProfileType := [.heavy, .ambient, .rhythmic, .acoustic, .chaotic]

structure ProfileWeights where
  heavy : ℚ
  ambient : ℚ
  rhythmic : ℚ
  acoustic : ℚ
  chaotic : ℚ
deriving DecidableEq

def ProfileWeights.get (w : ProfileWeights) : ProfileType → ℚ
  | .heavy => w.heavy
  | .ambient => w.ambient
  | .rhythmic => w.rhythmic
  | .acoustic => w.acoustic
  | .chaotic => w.chaotic

/-- The classifier's rolling statistics. -/
structure RollingStats where
  centroid : ℚ
  flux : ℚ
  onsetDensity : ℚ
  bassRatio : ℚ
  zcr : ℚ
deriving DecidableEq

structure VisualParams where
  hue1 : ℚ
  hue2 : ℚ
  hue3 : ℚ
  roughness : ℚ
  displacementScale : ℚ
  bloomStrength : ℚ
  chromaAmount : ℚ
  grainAmount : ℚ
  particleVelocity : ℚ
  particleOpacity : ℚ
  cameraShake : ℚ
  dominant : ProfileType
deriving DecidableEq

/-- Clamp to [0, 1]. -/
def sat (x : ℚ) : ℚ := max 0 (min 1 x)

/-- The fixed nonlinear archetype scores over the rolled scalars. -/
def rawScores (r : RollingStats) : ProfileType → ℚ
  | .heavy => sat (r.bassRatio * r.onsetDensity * r.flux * 6)
  | .ambient => sat ((1 - r.onsetDensity) * (1 - r.flux) * (95/100))
  | .rhythmic => sat (r.centroid * r.onsetDensity * max 0 (1 - r.bassRatio * (1/2)) * 4)
  | .acoustic =>
    sat ((1 - r.zcr) * (6/10 - |r.centroid - 28/100|) * 4 * (1 - r.onsetDensity * (6/10)))
  | .chaotic => sat (r.zcr * r.flux * 6)

def scoreTotal (r : RollingStats) : ℚ :=
  PROFILE_KEYS.foldl (fun s k => s + rawScores r k) 0

/-- The JavaScript total-or-1 guard written total or-else 1. -/
def totalOr1 (r : RollingStats) : ℚ :=
  if scoreTotal r = 0 then 1 else scoreTotal r

def targetWeights (r : RollingStats) : ProfileWeights :=
  ⟨rawScores r .heavy / totalOr1 r, rawScores r .ambient / totalOr1 r,
   rawScores r .rhythmic / totalOr1 r, rawScores r .acoustic / totalOr1 r,
   rawScores r .chaotic / totalOr1 r⟩

/-- The reduce that picks the dominant archetype: keep the accumulator unless
the candidate's weight is strictly greater. -/
def dominantOf (w : ProfileWeights) : ProfileType :=
  [ProfileType.ambient, .rhythmic, .acoustic, .chaotic].foldl
    (fun a b => if w.get b < w.get a then a else b) .heavy

def blendParam (w : ProfileWeights) (f : ProfileDef → ℚ) : ℚ :=
  PROFILE_KEYS.foldl (fun s p => s + f (PROFILE_DEFS p) * w.get p) 0

def paramsFromWeights (w : ProfileWeights) : VisualParams :=
  { hue1 := blendParam w (fun d => d.hue1),
    hue2 := blendParam w (fun d => d.hue2),
    hue3 := blendParam w (fun d => d.hue3),
    roughness := blendParam w (fun d => d.roughness),
    displacementScale := blendParam w (fun d => d.displacementScale),
    bloomStrength := blendParam w (fun d => d.bloomStrength),
    chromaAmount := blendParam w (fun d => d.chromaAmount),
    grainAmount := blendParam w (fun d => d.grainAmount),
    particleVelocity := blendParam w (fun d => d.particleVelocity),
    particleOpacity := blendParam w (fun d => d.particleOpacity),
    cameraShake := blendParam w (fun d => d.cameraShake),
    dominant := dominantOf w }

structure ClassifierState where
  rolling : RollingStats
  weights : ProfileWeights
  params : VisualParams
  txCentroid : ℚ
  txOnsetDensity : ℚ
deriving DecidableEq

def initWeights : ProfileWeights := ⟨0, 1, 0, 0, 0⟩

def initClassifier : ClassifierState :=
  { rolling := ⟨35/100, 5/100, 5/100, 8/10, 15/100⟩,
    weights := initWeights,
    params := paramsFromWeights initWeights,
    txCentroid := 35/100, txOnsetDensity := 5/100 }

/-- The rolling-stats EMA block of update: flux and bass ratio at the fast
1.5 s constant, the rest at the slow 5 s constant. -/
def rollingNext (frame : LiveAnalysisFrame) (dt : ℚ) (r : RollingStats) : RollingStats :=
  let αFast := min (15/100) (dt / (3/2))
  let αSlow := min (4/100) (dt / 5)
  let bassRatio := (frame.subBass + frame.bass) / max (1/1000) (frame.mids + frame.highs)
  { centroid := r.centroid + (frame.centroid - r.centroid) * αSlow,
    flux := r.flux + (frame.flux - r.flux) * αFast,
    onsetDensity := r.onsetDensity + (frame.onsetDensity - r.onsetDensity) * αSlow,
    bassRatio := r.bassRatio + (bassRatio - r.bassRatio) * αSlow,
    zcr := r.zcr + (frame.zcr - r.zcr) * αSlow }

/-- The per-archetype weight blend toward the target weights. -/
def weightsNext (w tw : ProfileWeights) (α : ℚ) : ProfileWeights :=
  ⟨w.heavy + (tw.heavy - w.heavy) * α,
   w.ambient + (tw.ambient - w.ambient) * α,
   w.rhythmic + (tw.rhythmic - w.rhythmic) * α,
   w.acoustic + (tw.acoustic - w.acoustic) * α,
   w.chaotic + (tw.chaotic - w.chaotic) * α⟩

/-- The per-key visual-parameter smoothing; the dominant tag snaps. -/
def paramsNext (p target : VisualParams) (α : ℚ) : VisualParams :=
  { hue1 := p.hue1 + (target.hue1 - p.hue1) * α,
    hue2 := p.hue2 + (target.hue2 - p.hue2) * α,
    hue3 := p.hue3 + (target.hue3 - p.hue3) * α,
    roughness := p.roughness + (target.roughness - p.roughness) * α,
    displacementScale := p.displacementScale +
      (target.displacementScale - p.displacementScale) * α,
    bloomStrength := p.bloomStrength + (target.bloomStrength - p.bloomStrength) * α,
    chromaAmount := p.chromaAmount + (target.chromaAmount - p.chromaAmount) * α,
    grainAmount := p.grainAmount + (target.grainAmount - p.grainAmount) * α,
    particleVelocity := p.particleVelocity +
      (target.particleVelocity - p.particleVelocity) * α,
    particleOpacity := p.particleOpacity +
      (target.particleOpacity - p.particleOpacity) * α,
    cameraShake := p.cameraShake + (target.cameraShake - p.cameraShake) * α,
    dominant := target.dominant }

/-- One call of AudioProfileClassifier.update. Returns the new state and the
returned parameter snapshot. A frame with no bass and no sub-bass energy is
the no-op branch returning the previous parameters. -/
def update (frame : LiveAnalysisFrame) (dt : ℚ) (s : ClassifierState) :
    ClassifierState × VisualParams :=
  if frame.bass > 0 ∨ frame.subBass > 0 then
    let rolling := rollingNext frame dt s.rolling
    let weights := weightsNext s.weights (targetWeights rolling) (min (2/100) (dt / (5/2)))
    let params := paramsNext s.params (paramsFromWeights weights) (min (25/100) (dt / (3/10)))
    ({ rolling := rolling, weights := weights, params := params,
       txCentroid := s.txCentroid, txOnsetDensity := s.txOnsetDensity }, params)
  else (s, s.params)

/-- Fold of update over a stream of (frame, dt) inputs from the fresh state. -/
def runClassifier (inputs : List (LiveAnalysisFrame × ℚ)) : ClassifierState :=
  inputs.foldl (fun s p => (update p.1 p.2 s).1) initClassifier

def wsum (w : ProfileWeights) : ℚ :=
  w.heavy + w.ambient + w.rhythmic + w.acoustic + w.chaotic

/-- A frame whose documented 0-1 fields are in range, with a positive dt. -/
def ValidInput (p : LiveAnalysisFrame × ℚ) : Prop :=
  p.1.flux ≤ 1 ∧ p.1.onsetDensity ≤ 1 ∧ 0 < p.2

/-- The rolled scalars of the spec scenario for the archetype scores. -/
def c2Rolling : RollingStats :=
  { centroid := 2/10, flux := 5/10, onsetDensity := 6/10, bassRatio := 3, zcr := 1/10 }

/-- Inductive invariant of the classifier: weights are a distribution and the
rolled onset density and flux stay strictly under 1. -/
def Inv (s : ClassifierState) : Prop :=
  wsum s.weights = 1 ∧
  (0 ≤ s.weights.heavy ∧ 0 ≤ s.weights.ambient ∧ 0 ≤ s.weights.rhythmic ∧
    0 ≤ s.weights.acoustic ∧ 0 ≤ s.weights.chaotic) ∧
  s.rolling.onsetDensity < 1 ∧ s.rolling.flux < 1

/-- A concrete in-range frame with audible bass, for witnesses. -/
def c4Frame : LiveAnalysisFrame :=
  { subBass := 3/10, bass := 1/2, mids := 2/10, highs := 1/10, brilliance := 1/10,
    rawMids := 2/10, centroid := 3/10, flux := 1/5, rolloff := 4/10, zcr := 1/10,
    onsets := ⟨false, false, false, false⟩, onsetDensity := 1/10,
    vocalDetected := false, beat := ⟨false, 0⟩, bpm := 120 }

/-- A concrete frame with zero bass and zero sub-bass, for witnesses. -/
def c9Frame : LiveAnalysisFrame :=
  { subBass := 0, bass := 0, mids := 1/2, highs := 1/4, brilliance := 1/10,
    rawMids := 1/2, centroid := 3/10, flux := 1/5, rolloff := 4/10, zcr := 1/10,
    onsets := ⟨false, false, false, false⟩, onsetDensity := 1/10,
    vocalDetected := false, beat := ⟨false, 0⟩, bpm := 120 }

end Profile

/- ────────────────────────────────────────────────────────────────────────────
   Mood palette system (src/three/moodPalette.ts)
   ──────────────────────────────────────────────────────────────────────────── -/

namespace Mood

structure RGBc where
  r : ℚ
  g : ℚ
  b : ℚ
deriving DecidableEq

structure HSL where
  h : ℚ
  s : ℚ
  l : ℚ
deriving DecidableEq

/-- The hue case analysis of rgbToHsl, before the division by 6. -/
def hueRaw (c : RGBc) (d : ℚ) : ℚ :=
  if max c.r (max c.g c.b) = c.r then
    (c.g - c.b) / d + (if c.g < c.b then 6 else 0)
  else if max c.r (max c.g c.b) = c.g then (c.b - c.r) / d + 2
  else (c.r - c.g) / d + 4

def rgbToHsl (c : RGBc) : HSL :=
  let maxc := max c.r (max c.g c.b)
  let minc := min c.r (min c.g c.b)
  let l := (maxc + minc) / 2
  if maxc = minc then ⟨0, 0, l⟩
  else
    let d := maxc - minc
    let s := if 1/2 < l then d / (2 - maxc - minc) else d / (maxc + minc)
    ⟨hueRaw c d / 6, s, l⟩

def h2rgb (p q t : ℚ) : ℚ :=
  let t1 := if t < 0 then t + 1 else t
  let t2 := if 1 < t1 then t1 - 1 else t1
  if t2 < 1/6 then p + (q - p) * 6 * t2
  else if t2 < 1/2 then q
  else if t2 < 2/3 then p + (q - p) * (2/3 - t2) * 6
  else p

/-- JavaScript truncation toward zero. -/
def qtrunc (x : ℚ) : ℤ := if 0 ≤ x then Int.floor x else Int.ceil x

/-- JavaScript x % 1 (remainder keeps the sign of the dividend). -/
def jsMod1 (x : ℚ) : ℚ := x - qtrunc x

def hslToRgb (h s l : ℚ) : RGBc :=
  let hn := jsMod1 (jsMod1 h + 1)
  if s < 1/10000 then ⟨l, l, l⟩
  else
    let q := if l < 1/2 then l * (1 + s) else l + s - l * s
    let p := 2 * l - q
    ⟨h2rgb p q (hn + 1/3), h2rgb p q hn, h2rgb p q (hn - 1/3)⟩

/-- Low-energy dark mood corner. -/
def LD : Fin 4 → RGBc
  | 0 => ⟨8/100, 5/100, 25/100⟩
  | 1 => ⟨40/100, 6/100, 12/100⟩
  | 2 => ⟨16/100, 20/100, 4/100⟩
  | 3 => ⟨6/100, 8/100, 18/100⟩

/-- Low-energy bright mood corner. -/
def LB : Fin 4 → RGBc
  | 0 => ⟨62/100, 58/100, 88/100⟩
  | 1 => ⟨52/100, 74/100, 56/100⟩
  | 2 => ⟨54/100, 64/100, 78/100⟩
  | 3 => ⟨84/100, 88/100, 96/100⟩

/-- High-energy dark mood corner. -/
def HD : Fin 4 → RGBc
  | 0 => ⟨72/100, 28/100, 5/100⟩
  | 1 => ⟨72/100, 6/100, 8/100⟩
  | 2 => ⟨84/100, 72/100, 4/100⟩
  | 3 => ⟨28/100, 4/100, 4/100⟩

/-- High-energy bright mood corner. -/
def HB : Fin 4 → RGBc
  | 0 => ⟨98/100, 32/100, 28/100⟩
  | 1 => ⟨6/100, 62/100, 94/100⟩
  | 2 => ⟨68/100, 98/100, 4/100⟩
  | 3 => ⟨92/100, 6/100, 88/100⟩

def lerp3 (a b : RGBc) (t : ℚ) : RGBc :=
  ⟨a.r + (b.r - a.r) * t, a.g + (b.g - a.g) * t, a.b + (b.b - a.b) * t⟩

/-- Bilinear blend across the energy and brightness axes. -/
def moodQuad (energy bright : ℚ) : Fin 4 → RGBc := fun i =>
  lerp3 (lerp3 (LD i) (HD i) energy) (lerp3 (LB i) (HB i) energy) bright

/-- The current mood colours at construction of the system. -/
def initialCurrent : Fin 4 → RGBc := moodQuad (1/2) (1/2)

/-- Shortest-arc hue difference of modulate. -/
def hueDelta (bH mH : ℚ) : ℚ :=
  let d := mH - bH
  let d1 := if 1/2 < d then d - 1 else d
  if d1 < -(1/2) then d1 + 1 else d1

/-- The HSL-space blend of modulate: hue 40 percent along the shortest arc,
saturation 70 percent (clamped), lightness 30 percent (clamped). -/
def moodBlendHSL (base mood : HSL) : HSL :=
  ⟨base.h + hueDelta base.h mood.h * (4/10),
   min 1 (max 0 (base.s + (mood.s - base.s) * (7/10))),
   min 1 (max 0 (base.l + (mood.l - base.l) * (3/10)))⟩

/-- One palette slot of MoodPaletteSystem.modulate. -/
def modulateColor (base mood : RGBc) : RGBc :=
  let n := moodBlendHSL (rgbToHsl base) (rgbToHsl mood)
  hslToRgb n.h n.s n.l

/-- The modulate loop over the four palette slots against the current mood. -/
def modulate (pal current : Fin 4 → RGBc) : Fin 4 → RGBc := fun i =>
  modulateColor (pal i) (current i)

/-- Channels in the unit interval. -/
def in01 (c : RGBc) : Prop :=
  0 ≤ c.r ∧ c.r ≤ 1 ∧ 0 ≤ c.g ∧ c.g ≤ 1 ∧ 0 ≤ c.b ∧ c.b ≤ 1

instance (c : RGBc) : Decidable (in01 c) := by
  unfold in01
  infer_instance

/-- The uniform gray base colour used in concrete palette examples. -/
def grayBase : RGBc := ⟨1/2, 1/2, 1/2⟩

end Mood

/- ────────────────────────────────────────────────────────────────────────────
   Helper lemmas about enumeration and the firing loops
   ──────────────────────────────────────────────────────────────────────────── -/

namespace BeatSync

theorem le_fst_of_mem_enumFrom {α : Type} (l : List α) :
    ∀ (n : ℕ) (p : ℕ × α), p ∈ l.enumFrom n → n ≤ p.1 := by
  induction l with
  | nil => intro n p h; simp [List.enumFrom] at h
  | cons x xs ih =>
    intro n p h
    simp only [List.enumFrom, List.mem_cons] at h
    rcases h with h | h
    · simp [h]
    · exact Nat.le_of_succ_le (ih (n + 1) p h)

theorem pairwise_enumFrom {α : Type} (l : List α) :
    ∀ n : ℕ, (l.enumFrom n).Pairwise (fun a b => a.1 < b.1) := by
  induction l with
  | nil => intro n; simp [List.enumFrom]
  | cons x xs ih =>
    intro n
    simp only [List.enumFrom]
    refine List.Pairwise.cons ?_ (ih (n + 1))
    intro p hp
    exact Nat.lt_of_succ_le (le_fst_of_mem_enumFrom xs (n + 1) p hp)

theorem pairwise_enum {α : Type} (l : List α) :
    l.enum.Pairwise (fun a b => a.1 < b.1) := by
  simpa [List.enum] using pairwise_enumFrom l 0

theorem pairwise_eventsInWindow (arr : List StructEvent) (prevSec curSec : ℚ) :
    (eventsInWindow arr prevSec curSec).Pairwise (fun a b => a.1 < b.1) :=
  (pairwise_enum arr).filter _

theorem fireIdxGo_snd (evs : List (ℕ × StructEvent)) :
    ∀ (last : Int) (acc : List ℕ),
      (fireIdxGo last acc evs).2 = acc ++ specScan last evs := by
  induction evs with
  | nil => intro last acc; simp [fireIdxGo, specScan]
  | cons p rest ih =>
    intro last acc
    by_cases h : (p.1 : Int) ≠ last
    · simp [fireIdxGo, specScan, h, ih]
    · simp [fireIdxGo, specScan, h, ih]

theorem fireBeatsGo_map_fst (evs : List (ℕ × StructEvent)) :
    ∀ (last : Int) (acc : List (ℕ × ℚ)),
      (fireBeatsGo last acc evs).2.map Prod.fst = acc.map Prod.fst ++ specScan last evs := by
  induction evs with
  | nil => intro last acc; simp [fireBeatsGo, specScan]
  | cons p rest ih =>
    intro last acc
    by_cases h : (p.1 : Int) ≠ last
    · simp [fireBeatsGo, specScan, h, ih]
    · simp [fireBeatsGo, specScan, h, ih]

theorem fireIdxGo_all (evs : List (ℕ × StructEvent)) :
    ∀ (last : Int) (acc : List ℕ),
      (∀ p ∈ evs, last < (p.1 : Int)) →
      evs.Pairwise (fun a b => a.1 < b.1) →
      (fireIdxGo last acc evs).2 = acc ++ evs.map (fun p => p.1) := by
  induction evs with
  | nil => intro last acc _ _; simp [fireIdxGo]
  | cons p rest ih =>
    intro last acc hlt hpw
    have hne : (p.1 : Int) ≠ last := ne_of_gt (hlt p (by simp))
    rw [List.pairwise_cons] at hpw
    have hrest : ∀ q ∈ rest, (p.1 : Int) < (q.1 : Int) := by
      intro q hq
      exact_mod_cast hpw.1 q hq
    simp only [fireIdxGo, if_pos hne]
    rw [ih (p.1 : Int) (acc ++ [p.1]) hrest hpw.2]
    simp

theorem fireBeatsGo_all (evs : List (ℕ × StructEvent)) :
    ∀ (last : Int) (acc : List (ℕ × ℚ)),
      (∀ p ∈ evs, last < (p.1 : Int)) →
      evs.Pairwise (fun a b => a.1 < b.1) →
      (fireBeatsGo last acc evs).2 = acc ++ evs.map (fun p => (p.1, p.2.confidence)) := by
  induction evs with
  | nil => intro last acc _ _; simp [fireBeatsGo]
  | cons p rest ih =>
    intro last acc hlt hpw
    have hne : (p.1 : Int) ≠ last := ne_of_gt (hlt p (by simp))
    rw [List.pairwise_cons] at hpw
    have hrest : ∀ q ∈ rest, (p.1 : Int) < (q.1 : Int) := by
      intro q hq
      exact_mod_cast hpw.1 q hq
    simp only [fireBeatsGo, if_pos hne]
    rw [ih (p.1 : Int) (acc ++ [(p.1, p.2.confidence)]) hrest hpw.2]
    simp

end BeatSync

/- ────────────────────────────────────────────────────────────────────────────
   Claim theorems for the synchronizer
   ──────────────────────────────────────────────────────────────────────────── -/

open BeatSync

/-- C5: with beats at 0.5, 1.0, 1.5 s and playing=true, positions
0.0, 0.6, 1.2, 1.8 s fire beat 0, then beat 1, then beat 2, exactly once each
and in order; and in general a playing, non-seeking call fires exactly the
window events whose index differs from the running last-fired index. -/
theorem c5_sync_dispatch_exactness :
    ((run (some c5Analysis) c5Calls resetState).2.map (fun f => f.beats.map Prod.fst) =
      [[], [0], [1], [2]]) ∧
    (∀ (a : AudioAnalysis) (posMs : ℚ) (st : SyncState),
      ¬(posMs / 1000 < st.prevPosition.getD (posMs / 1000 - 1/5) - 1/2) →
      (step (some a) posMs true st).2.beats.map Prod.fst =
        specScan st.lastBeat
          (eventsInWindow a.beats (st.prevPosition.getD (posMs / 1000 - 1/5)) (posMs / 1000)) ∧
      (step (some a) posMs true st).2.bars =
        specScan st.lastBar
          (eventsInWindow a.bars (st.prevPosition.getD (posMs / 1000 - 1/5)) (posMs / 1000)) ∧
      (step (some a) posMs true st).2.sections =
        specScan st.lastSection
          (eventsInWindow a.sections (st.prevPosition.getD (posMs / 1000 - 1/5)) (posMs / 1000))) := by
  constructor
  · with_unfolding_all decide
  · intro a posMs st hns
    simp only [step, if_neg hns]
    refine ⟨?_, ?_, ?_⟩
    · simpa using fireBeatsGo_map_fst
        (eventsInWindow a.beats (st.prevPosition.getD (posMs / 1000 - 1/5)) (posMs / 1000))
        st.lastBeat []
    · simpa using fireIdxGo_snd
        (eventsInWindow a.bars (st.prevPosition.getD (posMs / 1000 - 1/5)) (posMs / 1000))
        st.lastBar []
    · simpa using fireIdxGo_snd
        (eventsInWindow a.sections (st.prevPosition.getD (posMs / 1000 - 1/5)) (posMs / 1000))
        st.lastSection []

/-- Witness for C5: the general dispatch conjunct applied at the second call of
the scenario (previous position 0 s, current 0.6 s), where it fires beat 0. -/
theorem c5_sync_dispatch_exactness_witness :
    (¬((600 : ℚ) / 1000 <
        (SyncState.mk (some 0) (-1) (-1) (-1)).prevPosition.getD (600 / 1000 - 1/5) - 1/2)) ∧
    (step (some c5Analysis) 600 true (SyncState.mk (some 0) (-1) (-1) (-1))).2.beats.map Prod.fst =
      specScan (-1)
        (eventsInWindow c5Analysis.beats
          ((SyncState.mk (some 0) (-1) (-1) (-1)).prevPosition.getD (600 / 1000 - 1/5))
          (600 / 1000)) :=
  ⟨by norm_num,
   (c5_sync_dispatch_exactness.2 c5Analysis 600 (SyncState.mk (some 0) (-1) (-1) (-1))
      (by norm_num)).1⟩

/-- C6: after the forward playback of the scenario reaches 1.8 s, a call at
0.2 s (a backward jump of more than 0.5 s) fires nothing and resets the
position anchor to 0.2 s, and a following call at 0.6 s fires beat 0 again. -/
theorem c6_seek_suppression :
    ((run (some c5Analysis) (c5Calls ++ [(200, true)]) resetState).1.prevPosition =
      some (1/5)) ∧
    ((run (some c5Analysis) (c5Calls ++ [(200, true)]) resetState).2.map
        (fun f => f.beats.map Prod.fst) = [[], [0], [1], [2], []]) ∧
    ((run (some c5Analysis) (c5Calls ++ [(200, true), (600, true)]) resetState).2.map
        (fun f => f.beats.map Prod.fst) = [[], [0], [1], [2], [], [0]]) := by
  refine ⟨by with_unfolding_all decide, by with_unfolding_all decide,
    by with_unfolding_all decide⟩

/-- C10: on the first call after a reset (no stored previous position), the
dispatch window is (current minus 0.2 s, current], and every table entry whose
start lies in that window fires on that very first call. -/
theorem c10_first_call_window (a : AudioAnalysis) (posMs : ℚ) :
    (step (some a) posMs true resetState).1.prevPosition = some (posMs / 1000) ∧
    (step (some a) posMs true resetState).2.beats =
      (eventsInWindow a.beats (posMs / 1000 - 1/5) (posMs / 1000)).map
        (fun p => (p.1, p.2.confidence)) ∧
    (step (some a) posMs true resetState).2.bars =
      (eventsInWindow a.bars (posMs / 1000 - 1/5) (posMs / 1000)).map (fun p => p.1) ∧
    (step (some a) posMs true resetState).2.sections =
      (eventsInWindow a.sections (posMs / 1000 - 1/5) (posMs / 1000)).map (fun p => p.1) := by
  have hns : ¬(posMs / 1000 < (resetState.prevPosition.getD (posMs / 1000 - 1/5)) - 1/2) := by
    simp only [resetState, Option.getD_none]
    intro h
    linarith
  have hlt : ∀ (arr : List StructEvent) (p : ℕ × StructEvent),
      p ∈ eventsInWindow arr (posMs / 1000 - 1/5) (posMs / 1000) → (-1 : Int) < (p.1 : Int) := by
    intro arr p _
    have : (0 : Int) ≤ (p.1 : Int) := Int.ofNat_nonneg p.1
    omega
  simp only [step, resetState, Option.getD_none] at hns ⊢
  rw [if_neg hns]
  refine ⟨rfl, ?_, ?_, ?_⟩
  · simpa using fireBeatsGo_all
      (eventsInWindow a.beats (posMs / 1000 - 1/5) (posMs / 1000)) (-1) []
      (hlt a.beats) (pairwise_eventsInWindow a.beats _ _)
  · simpa using fireIdxGo_all
      (eventsInWindow a.bars (posMs / 1000 - 1/5) (posMs / 1000)) (-1) []
      (hlt a.bars) (pairwise_eventsInWindow a.bars _ _)
  · simpa using fireIdxGo_all
      (eventsInWindow a.sections (posMs / 1000 - 1/5) (posMs / 1000)) (-1) []
      (hlt a.sections) (pairwise_eventsInWindow a.sections _ _)

/-- Witness for C10: the first reset call at 0.6 s fires beat 0, which starts
0.1 s before that position. -/
theorem c10_first_call_window_witness :
    (step (some c5Analysis) 600 true resetState).2.beats =
      (eventsInWindow c5Analysis.beats (600 / 1000 - 1/5) (600 / 1000)).map
        (fun p => (p.1, p.2.confidence)) :=
  (c10_first_call_window c5Analysis 600).2.1

/- ────────────────────────────────────────────────────────────────────────────
   Helper lemmas for the analyzer
   ──────────────────────────────────────────────────────────────────────────── -/

namespace Analyzer

theorem snd_mem_of_mem_enumFrom {α : Type} (l : List α) :
    ∀ (n : ℕ) (p : ℕ × α), p ∈ l.enumFrom n → p.2 ∈ l := by
  induction l with
  | nil => intro n p h; simp [List.enumFrom] at h
  | cons x xs ih =>
    intro n p h
    simp only [List.enumFrom, List.mem_cons] at h
    rcases h with h | h
    · simp [h]
    · exact List.mem_cons_of_mem x (ih (n + 1) p h)

theorem snd_mem_of_mem_enum {α : Type} (l : List α) (p : ℕ × α) (h : p ∈ l.enum) :
    p.2 ∈ l :=
  snd_mem_of_mem_enumFrom l 0 p (by simpa [List.enum] using h)

theorem bandVals_allZero {sr : ℚ} {data : List ℕ} {b : Band5}
    (h : ∀ v ∈ data, v = 0) : ∀ v ∈ bandVals sr data b, v = 0 := by
  intro v hv
  simp only [bandVals, List.mem_map, List.mem_filter] at hv
  obtain ⟨p, ⟨hp, -⟩, rfl⟩ := hv
  exact h p.2 (snd_mem_of_mem_enum data p hp)

theorem bandSum_allZero {sr : ℚ} {data : List ℕ} {b : Band5}
    (h : ∀ v ∈ data, v = 0) : bandSum sr data b = 0 := by
  apply List.sum_eq_zero
  intro x hx
  obtain ⟨v, hv, rfl⟩ := List.mem_map.mp hx
  rw [bandVals_allZero h v hv]
  norm_num

theorem totalMag_allZero {data : List ℕ} (h : ∀ v ∈ data, v = 0) :
    totalMag data = 0 := by
  apply List.sum_eq_zero
  intro x hx
  obtain ⟨v, hv, rfl⟩ := List.mem_map.mp hx
  rw [h v hv]
  norm_num

theorem weightedBinSum_allZero {data : List ℕ} (h : ∀ v ∈ data, v = 0) :
    weightedBinSum data = 0 := by
  apply List.sum_eq_zero
  intro x hx
  obtain ⟨p, hp, rfl⟩ := List.mem_map.mp hx
  rw [h p.2 (snd_mem_of_mem_enum data p hp)]
  norm_num

theorem prevVal_nonneg (prev : Option (List ℕ)) (i : ℕ) : 0 ≤ prevVal prev i := by
  cases prev <;> simp [prevVal]

theorem fluxSum_allZero {data : List ℕ} {prev : Option (List ℕ)}
    (h : ∀ v ∈ data, v = 0) : fluxSum data prev = 0 := by
  apply List.sum_eq_zero
  intro x hx
  obtain ⟨p, hp, rfl⟩ := List.mem_map.mp hx
  rw [h p.2 (snd_mem_of_mem_enum data p hp)]
  have h0 := prevVal_nonneg prev p.1
  rw [Nat.cast_zero, zero_sub, max_eq_left (by linarith)]

theorem bandAvg_allZero {sr : ℚ} {data : List ℕ} {b : Band5}
    (h : ∀ v ∈ data, v = 0) : bandAvg sr data b = 0 := by
  unfold bandAvg
  rw [bandSum_allZero h]
  split <;> simp

theorem bandNorm_allZero {sr : ℚ} {data : List ℕ} {amp : ℚ} {b : Band5}
    (h : ∀ v ∈ data, v = 0) : bandNorm sr data amp b = 0 := by
  unfold bandNorm
  rw [bandSum_allZero h]
  split
  · rfl
  · norm_num

theorem rolloffBin_nonpos (data : List ℕ) (target : ℚ) (ht : target ≤ 0) :
    rolloffBin data target = 0 := by
  unfold rolloffBin
  cases data with
  | nil => rfl
  | cons v rest =>
    unfold rolloffGo
    rw [if_pos (le_trans ht (by positivity))]

theorem onsetFlag_nonpos (rolling lastOn wall raw : ℚ) (hr : raw ≤ 0) :
    onsetFlag rolling lastOn raw wall = false := by
  unfold onsetFlag
  simp only [decide_eq_false_iff_not, not_and]
  intro h1
  exfalso
  have h6 : (6:ℚ) ≤ max 6 (onsetRollingNext rolling raw * (3/2)) := le_max_left _ _
  linarith

theorem onsetFlag_zero (rolling lastOn wall : ℚ) :
    onsetFlag rolling lastOn 0 wall = false :=
  onsetFlag_nonpos rolling lastOn wall 0 le_rfl

theorem beatUpdate_bassAvg_nonpos (rb lbt : ℚ) (ints : List ℚ) (bpm : Int)
    (ba w : ℚ) (hb : ba ≤ 0) :
    (beatUpdate rb lbt ints bpm ba w).fired = false ∧
    (beatUpdate rb lbt ints bpm ba w).beatIntervals = ints ∧
    (beatUpdate rb lbt ints bpm ba w).bpm = bpm ∧
    (beatUpdate rb lbt ints bpm ba w).lastBeatTime = lbt := by
  unfold beatUpdate
  have h6 : (6:ℚ) ≤ max 6 ((rb * (94/100) + ba * (6/100)) * (14/10)) := le_max_left _ _
  rw [if_neg (by rintro ⟨h1, -⟩; linarith)]
  exact ⟨rfl, rfl, rfl, rfl⟩

theorem beatUpdate_fired_iff (rb lbt : ℚ) (ints : List ℚ) (bpm : Int)
    (ba w : ℚ) :
    (beatUpdate rb lbt ints bpm ba w).fired = true ↔
      (max 6 ((rb * (94/100) + ba * (6/100)) * (14/10)) < ba ∧
        (lbt < 0 ∨ 18/100 < w - lbt)) := by
  by_cases hc : max 6 ((rb * (94/100) + ba * (6/100)) * (14/10)) < ba ∧
      (lbt < 0 ∨ 18/100 < w - lbt)
  · simp only [beatUpdate]
    rw [if_pos hc]
    split_ifs <;> simpa using hc
  · simp only [beatUpdate]
    rw [if_neg hc]
    simpa using hc

theorem beatUpdate_unrec_not_fired (rb lbt : ℚ) (ints : List ℚ) (bpm : Int)
    (ba w : ℚ) (h : (beatUpdate rb lbt ints bpm ba w).fired = false) :
    (beatUpdate rb lbt ints bpm ba w).beatIntervals = ints ∧
    (beatUpdate rb lbt ints bpm ba w).bpm = bpm := by
  have hc : ¬(max 6 ((rb * (94/100) + ba * (6/100)) * (14/10)) < ba ∧
      (lbt < 0 ∨ 18/100 < w - lbt)) := by
    intro hc
    rw [(beatUpdate_fired_iff rb lbt ints bpm ba w).mpr hc] at h
    simp at h
  simp only [beatUpdate]
  rw [if_neg hc]
  exact ⟨rfl, rfl⟩

theorem beatUpdate_unrec_first (rb lbt : ℚ) (ints : List ℚ) (bpm : Int)
    (ba w : ℚ) (h : lbt < 0) :
    (beatUpdate rb lbt ints bpm ba w).beatIntervals = ints ∧
    (beatUpdate rb lbt ints bpm ba w).bpm = bpm := by
  by_cases hc : max 6 ((rb * (94/100) + ba * (6/100)) * (14/10)) < ba ∧
      (lbt < 0 ∨ 18/100 < w - lbt)
  · simp only [beatUpdate]
    rw [if_pos hc, if_neg (not_le.mpr h)]
    exact ⟨rfl, rfl⟩
  · simp only [beatUpdate]
    rw [if_neg hc]
    exact ⟨rfl, rfl⟩

theorem beatUpdate_unrec_gap (rb lbt : ℚ) (ints : List ℚ) (bpm : Int)
    (ba w : ℚ) (h : 2 ≤ w - lbt) :
    (beatUpdate rb lbt ints bpm ba w).beatIntervals = ints ∧
    (beatUpdate rb lbt ints bpm ba w).bpm = bpm := by
  by_cases hc : max 6 ((rb * (94/100) + ba * (6/100)) * (14/10)) < ba ∧
      (lbt < 0 ∨ 18/100 < w - lbt)
  · by_cases h0 : 0 ≤ lbt
    · simp only [beatUpdate]
      rw [if_pos hc, if_pos h0, if_neg (by linarith : ¬(w - lbt < 2))]
      exact ⟨rfl, rfl⟩
    · simp only [beatUpdate]
      rw [if_pos hc, if_neg h0]
      exact ⟨rfl, rfl⟩
  · simp only [beatUpdate]
    rw [if_neg hc]
    exact ⟨rfl, rfl⟩

theorem beatUpdate_rec (rb lbt : ℚ) (ints : List ℚ) (bpm : Int) (ba w : ℚ)
    (hf : (beatUpdate rb lbt ints bpm ba w).fired = true) (h0 : 0 ≤ lbt)
    (hg : w - lbt < 2) :
    (beatUpdate rb lbt ints bpm ba w).beatIntervals =
      beatIntervalsNext ints (w - lbt) ∧
    (2 ≤ (beatUpdate rb lbt ints bpm ba w).beatIntervals.length →
      (beatUpdate rb lbt ints bpm ba w).bpm =
        jsRound (60 / ((beatUpdate rb lbt ints bpm ba w).beatIntervals.sum /
          ((beatUpdate rb lbt ints bpm ba w).beatIntervals.length : ℚ)))) ∧
    ((beatUpdate rb lbt ints bpm ba w).beatIntervals.length < 2 →
      (beatUpdate rb lbt ints bpm ba w).bpm = bpm) := by
  have hc := (beatUpdate_fired_iff rb lbt ints bpm ba w).mp hf
  by_cases hlen : 2 ≤ (beatIntervalsNext ints (w - lbt)).length
  · simp only [beatUpdate]
    rw [if_pos hc, if_pos h0, if_pos hg, if_pos hlen]
    refine ⟨rfl, fun _ => rfl, fun hl2 => ?_⟩
    have hl2' : (beatIntervalsNext ints (w - lbt)).length < 2 := hl2
    omega
  · simp only [beatUpdate]
    rw [if_pos hc, if_pos h0, if_pos hg, if_neg hlen]
    refine ⟨rfl, fun hl2 => absurd hl2 hlen, fun _ => rfl⟩

/-- The effect of one tick on an all-zero magnitude frame: every smoothed
scalar is multiplied by its retention, and nothing fires. -/
theorem tick_silent (sr wall : ℚ) (data : List ℕ) (s : AnalyzerState)
    (h : ∀ v ∈ data, v = 0) :
    (tick sr (some data) wall s).1.smSubBass = s.smSubBass * (85/100) ∧
    (tick sr (some data) wall s).1.smBass = s.smBass * (85/100) ∧
    (tick sr (some data) wall s).1.smMids = s.smMids * (85/100) ∧
    (tick sr (some data) wall s).1.smHighs = s.smHighs * (85/100) ∧
    (tick sr (some data) wall s).1.smBrilliance = s.smBrilliance * (85/100) ∧
    (tick sr (some data) wall s).1.smCentroid = s.smCentroid * (88/100) ∧
    (tick sr (some data) wall s).1.smRolloff = s.smRolloff * (90/100) ∧
    (tick sr (some data) wall s).1.smZCR = s.smZCR * (88/100) ∧
    (tick sr (some data) wall s).1.smFlux = s.smFlux * (70/100) ∧
    (tick sr (some data) wall s).1.onsetDensitySmooth =
      s.onsetDensitySmooth * (992/1000) := by
  have ht : totalMag data = 0 := totalMag_allZero h
  have hf : fluxSum data s.prevData = 0 := fluxSum_allZero h
  have hrb0 : rolloffBin data 0 = 0 := rolloffBin_nonpos data 0 le_rfl
  have hbn : ∀ b, bandNorm sr data (if s.modeLive then 2 else 4) b = 0 :=
    fun b => bandNorm_allZero h
  have hba : ∀ b, bandAvg sr data b = 0 := fun b => bandAvg_allZero h
  refine ⟨?_, ?_, ?_, ?_, ?_, ?_, ?_, ?_, ?_, ?_⟩ <;>
    simp [tick, hbn, hba, ht, hf, hrb0, onsetFlag_zero, lt_irrefl]

/-- Closed form of a geometric recurrence. -/
theorem geom_closed (x : ℕ → ℚ) (c : ℚ) (hstep : ∀ n, x (n + 1) = c * x n) :
    ∀ n, x n = c ^ n * x 0 := by
  intro n
  induction n with
  | zero => simp
  | succ k ih =>
    rw [hstep k, ih, pow_succ]
    ring

/-- A sequence that is scaled each step by a fixed factor in [0, 1) from a
start in [0, 1] is monotone nonincreasing, stays in [0, 1], and eventually
drops below any positive tolerance. -/
theorem geom_props (x : ℕ → ℚ) (c : ℚ) (hc0 : 0 ≤ c) (hc1 : c < 1)
    (hx0 : 0 ≤ x 0) (hx1 : x 0 ≤ 1) (hstep : ∀ n, x (n + 1) = c * x n) :
    (∀ n, x n = c ^ n * x 0) ∧ (∀ n, x (n + 1) ≤ x n) ∧
    (∀ n, 0 ≤ x n ∧ x n ≤ 1) ∧
    (∀ ε : ℚ, 0 < ε → ∃ N, ∀ n, N ≤ n → x n ≤ ε) := by
  have hclosed := geom_closed x c hstep
  have hnn : ∀ n, 0 ≤ x n := by
    intro n
    rw [hclosed n]
    exact mul_nonneg (pow_nonneg hc0 n) hx0
  refine ⟨hclosed, ?_, ?_, ?_⟩
  · intro n
    rw [hstep n]
    exact mul_le_of_le_one_left (hnn n) (le_of_lt hc1)
  · intro n
    refine ⟨hnn n, ?_⟩
    rw [hclosed n]
    exact mul_le_one₀ (pow_le_one₀ hc0 (le_of_lt hc1)) hx0 hx1
  · intro ε hε
    obtain ⟨N, hN⟩ := exists_pow_lt_of_lt_one hε hc1
    refine ⟨N, fun n hn => ?_⟩
    rw [hclosed n]
    calc c ^ n * x 0 ≤ c ^ n * 1 :=
          mul_le_mul_of_nonneg_left hx1 (pow_nonneg hc0 n)
      _ = c ^ n := mul_one _
      _ ≤ c ^ N := pow_le_pow_of_le_one hc0 (le_of_lt hc1) hn
      _ ≤ ε := le_of_lt hN

end Analyzer

/- ────────────────────────────────────────────────────────────────────────────
   Claim theorems for the analyzer
   ──────────────────────────────────────────────────────────────────────────── -/

open Analyzer

/-- C1 (amended): over any sequence of ticks on all-zero frequency data from a
state whose smoothed scalars lie in [0, 1], every smoothed scalar (the five
band energies, centroid, rolloff, noisiness, flux and onset density) follows a
geometric decay with its retention, moves monotonically toward the floor 0 —
rolloff included, which decays toward 0 and not toward 0.3 — stays within
[0, 1] throughout, and comes within any fixed positive tolerance of 0 after a
bounded number of frames. -/
theorem c1_silence_decay (sr : ℚ) (seq : ℕ → List ℕ × ℚ) (s₀ : AnalyzerState)
    (hz : ∀ n, ∀ v ∈ (seq n).1, v = 0)
    (h01 : ∀ p ∈ smoothedRetentions, 0 ≤ p.1 s₀ ∧ p.1 s₀ ≤ 1) :
    ∀ p ∈ smoothedRetentions,
      (∀ n, p.1 (tickStates sr seq s₀ n) = p.2 ^ n * p.1 s₀) ∧
      (∀ n, p.1 (tickStates sr seq s₀ (n + 1)) ≤ p.1 (tickStates sr seq s₀ n)) ∧
      (∀ n, 0 ≤ p.1 (tickStates sr seq s₀ n) ∧ p.1 (tickStates sr seq s₀ n) ≤ 1) ∧
      (∀ ε : ℚ, 0 < ε → ∃ N, ∀ n, N ≤ n → p.1 (tickStates sr seq s₀ n) ≤ ε) := by
  intro p hp
  have hbound := h01 p hp
  have hmain : (∀ n, p.1 (tickStates sr seq s₀ (n + 1)) =
      p.2 * p.1 (tickStates sr seq s₀ n)) ∧ 0 ≤ p.2 ∧ p.2 < 1 := by
    simp only [smoothedRetentions, List.mem_cons, List.not_mem_nil, or_false] at hp
    rcases hp with h | h | h | h | h | h | h | h | h | h <;> subst h <;>
      refine ⟨fun n => ?_, by norm_num, by norm_num⟩ <;>
      · obtain ⟨e1, e2, e3, e4, e5, e6, e7, e8, e9, e10⟩ :=
          tick_silent sr (seq n).2 (seq n).1 (tickStates sr seq s₀ n) (hz n)
        simp only [tickStates]
        first
          | (rw [e1]; ring) | (rw [e2]; ring) | (rw [e3]; ring) | (rw [e4]; ring)
          | (rw [e5]; ring) | (rw [e6]; ring) | (rw [e7]; ring) | (rw [e8]; ring)
          | (rw [e9]; ring) | (rw [e10]; ring)
  exact geom_props (fun n => p.1 (tickStates sr seq s₀ n)) p.2 hmain.2.1 hmain.2.2
    hbound.1 hbound.2 hmain.1

/-- Witness for C1: the closed geometric form of the smoothed centroid after
two all-zero ticks from the initial analyzer state. -/
theorem c1_silence_decay_witness :
    AnalyzerState.smCentroid (tickStates 160 (fun _ => ([], 0)) initState 2) =
      (88/100 : ℚ) ^ 2 * initState.smCentroid :=
  ((c1_silence_decay 160 (fun _ => ([], 0)) initState
      (fun _ v hv => by simp at hv)
      (by intro p hp; fin_cases hp <;>
            exact ⟨by norm_num [initState], by norm_num [initState]⟩))
    (fun s => s.smCentroid, 88/100) (by simp [smoothedRetentions])).1 2

/-- C1 counterexample: after one all-zero tick from the initial state, the
smoothed rolloff moves from 0.3 to 0.27 — strictly away from the claimed floor
0.3 and below it, refuting the claim that it moves monotonically toward 0.3. -/
theorem c1_counterexample :
    |(tick 160 (some (List.replicate 8 0)) 1 initState).1.smRolloff - 3/10| >
      |initState.smRolloff - 3/10| ∧
    (tick 160 (some (List.replicate 8 0)) 1 initState).1.smRolloff < 3/10 := by
  with_unfolding_all decide

/-- C7 (amended): in every tick, a band onset flag is set if and only if the
raw band average exceeds max(6, 1.5 times the updated rolling average) and
strictly more than 0.12 s — not at-least 0.12 s — has elapsed since that
band's last fired onset; consequently a tick within 0.12 s of a fired onset
in the same band never fires again. -/
theorem c7_onset_refractory (sr wall : ℚ) (data : List ℕ) (s : AnalyzerState) :
    ((tick sr (some data) wall s).2.onsets.subBass = true ↔
      (max 6 (onsetRollingNext s.onsetRollingSubBass (bandAvg sr data .subBass) * (3/2)) <
          bandAvg sr data .subBass ∧ 12/100 < wall - s.lastOnsetSubBass)) ∧
    ((tick sr (some data) wall s).2.onsets.bass = true ↔
      (max 6 (onsetRollingNext s.onsetRollingBass (bandAvg sr data .bass) * (3/2)) <
          bandAvg sr data .bass ∧ 12/100 < wall - s.lastOnsetBass)) ∧
    ((tick sr (some data) wall s).2.onsets.mids = true ↔
      (max 6 (onsetRollingNext s.onsetRollingMids (bandAvg sr data .mids) * (3/2)) <
          bandAvg sr data .mids ∧ 12/100 < wall - s.lastOnsetMids)) ∧
    ((tick sr (some data) wall s).2.onsets.highs = true ↔
      (max 6 (onsetRollingNext s.onsetRollingHighs (bandAvg sr data .highs) * (3/2)) <
          bandAvg sr data .highs ∧ 12/100 < wall - s.lastOnsetHighs)) ∧
    ((tick sr (some data) wall s).2.onsets.subBass = true →
      ∀ (data2 : List ℕ) (wall2 : ℚ), wall2 ≤ wall + 12/100 →
        (tick sr (some data2) wall2 (tick sr (some data) wall s).1).2.onsets.subBass =
          false) ∧
    ((tick sr (some data) wall s).2.onsets.bass = true →
      ∀ (data2 : List ℕ) (wall2 : ℚ), wall2 ≤ wall + 12/100 →
        (tick sr (some data2) wall2 (tick sr (some data) wall s).1).2.onsets.bass =
          false) ∧
    ((tick sr (some data) wall s).2.onsets.mids = true →
      ∀ (data2 : List ℕ) (wall2 : ℚ), wall2 ≤ wall + 12/100 →
        (tick sr (some data2) wall2 (tick sr (some data) wall s).1).2.onsets.mids =
          false) ∧
    ((tick sr (some data) wall s).2.onsets.highs = true →
      ∀ (data2 : List ℕ) (wall2 : ℚ), wall2 ≤ wall + 12/100 →
        (tick sr (some data2) wall2 (tick sr (some data) wall s).1).2.onsets.highs =
          false) := by
  have hflag : ∀ (r l raw w : ℚ),
      onsetFlag r l raw w = true ↔
        (max 6 (onsetRollingNext r raw * (3/2)) < raw ∧ 12/100 < w - l) := by
    intro r l raw w
    simp [onsetFlag]
  have hrefr : ∀ (r2 raw2 w w2 : ℚ), w2 ≤ w + 12/100 →
      onsetFlag r2 w raw2 w2 = false := by
    intro r2 raw2 w w2 h2
    unfold onsetFlag
    rw [decide_eq_false_iff_not]
    rintro ⟨-, hlt⟩
    linarith
  refine ⟨hflag s.onsetRollingSubBass s.lastOnsetSubBass (bandAvg sr data .subBass) wall,
    hflag s.onsetRollingBass s.lastOnsetBass (bandAvg sr data .bass) wall,
    hflag s.onsetRollingMids s.lastOnsetMids (bandAvg sr data .mids) wall,
    hflag s.onsetRollingHighs s.lastOnsetHighs (bandAvg sr data .highs) wall,
    ?_, ?_, ?_, ?_⟩
  · intro hfire data2 wall2 h2
    have hfire' : onsetFlag s.onsetRollingSubBass s.lastOnsetSubBass
        (bandAvg sr data .subBass) wall = true := hfire
    have hlast : (tick sr (some data) wall s).1.lastOnsetSubBass = wall := by
      show lastOnsetNext s.onsetRollingSubBass s.lastOnsetSubBass
        (bandAvg sr data .subBass) wall = wall
      unfold lastOnsetNext
      rw [if_pos hfire']
    show onsetFlag ((tick sr (some data) wall s).1.onsetRollingSubBass)
      ((tick sr (some data) wall s).1.lastOnsetSubBass)
      (bandAvg sr data2 .subBass) wall2 = false
    rw [hlast]
    exact hrefr _ _ _ _ h2
  · intro hfire data2 wall2 h2
    have hfire' : onsetFlag s.onsetRollingBass s.lastOnsetBass
        (bandAvg sr data .bass) wall = true := hfire
    have hlast : (tick sr (some data) wall s).1.lastOnsetBass = wall := by
      show lastOnsetNext s.onsetRollingBass s.lastOnsetBass
        (bandAvg sr data .bass) wall = wall
      unfold lastOnsetNext
      rw [if_pos hfire']
    show onsetFlag ((tick sr (some data) wall s).1.onsetRollingBass)
      ((tick sr (some data) wall s).1.lastOnsetBass)
      (bandAvg sr data2 .bass) wall2 = false
    rw [hlast]
    exact hrefr _ _ _ _ h2
  · intro hfire data2 wall2 h2
    have hfire' : onsetFlag s.onsetRollingMids s.lastOnsetMids
        (bandAvg sr data .mids) wall = true := hfire
    have hlast : (tick sr (some data) wall s).1.lastOnsetMids = wall := by
      show lastOnsetNext s.onsetRollingMids s.lastOnsetMids
        (bandAvg sr data .mids) wall = wall
      unfold lastOnsetNext
      rw [if_pos hfire']
    show onsetFlag ((tick sr (some data) wall s).1.onsetRollingMids)
      ((tick sr (some data) wall s).1.lastOnsetMids)
      (bandAvg sr data2 .mids) wall2 = false
    rw [hlast]
    exact hrefr _ _ _ _ h2
  · intro hfire data2 wall2 h2
    have hfire' : onsetFlag s.onsetRollingHighs s.lastOnsetHighs
        (bandAvg sr data .highs) wall = true := hfire
    have hlast : (tick sr (some data) wall s).1.lastOnsetHighs = wall := by
      show lastOnsetNext s.onsetRollingHighs s.lastOnsetHighs
        (bandAvg sr data .highs) wall = wall
      unfold lastOnsetNext
      rw [if_pos hfire']
    show onsetFlag ((tick sr (some data) wall s).1.onsetRollingHighs)
      ((tick sr (some data) wall s).1.lastOnsetHighs)
      (bandAvg sr data2 .highs) wall2 = false
    rw [hlast]
    exact hrefr _ _ _ _ h2

/-- Witness for C7: a sub-bass onset fired at wall time 1 s suppresses a
second spike 0.06 s later. -/
theorem c7_onset_refractory_witness :
    (tick 160 (some fullData8) 1 initState).2.onsets.subBass = true ∧
    (tick 160 (some fullData8) (106/100)
      (tick 160 (some fullData8) 1 initState).1).2.onsets.subBass = false :=
  ⟨by with_unfolding_all decide,
   (c7_onset_refractory 160 1 fullData8 initState).2.2.2.2.1
     (by with_unfolding_all decide) fullData8 (106/100) (by norm_num)⟩

/-- State for the C7 counterexample: as initial, but the sub-bass band fired
its last onset at wall time 0. -/
def c7State : AnalyzerState := { initState with lastOnsetSubBass := 0 }

/-- C7 counterexample: a full-magnitude spike at wall time 0.12 s — exactly
120 ms after the last sub-bass onset, so at-least-120-ms has elapsed and the
threshold is exceeded — fires no onset, because the code requires strictly
more than 120 ms. -/
theorem c7_counterexample :
    max 6 (onsetRollingNext c7State.onsetRollingSubBass
        (bandAvg 160 fullData8 .subBass) * (3/2)) < bandAvg 160 fullData8 .subBass ∧
    (12/100 : ℚ) - c7State.lastOnsetSubBass ≥ 12/100 ∧
    (tick 160 (some fullData8) (12/100) c7State).2.onsets.subBass = false := by
  with_unfolding_all decide

/-- C8: only inter-beat gaps strictly under 2 s are recorded into the 8-entry
ring, the BPM is recomputed as round(60/mean) exactly when at least 2 gaps are
stored, and beats at a regular 0.5 s spacing for 3 beats report BPM 120. -/
theorem c8_tempo_tracking (sr wall : ℚ) (data : List ℕ) (s : AnalyzerState) :
    (((tick sr (some data) wall s).2.beat.fired = false ∨ s.lastBeatTime < 0 ∨
        2 ≤ wall - s.lastBeatTime) →
      (tick sr (some data) wall s).1.beatIntervals = s.beatIntervals ∧
      (tick sr (some data) wall s).1.bpm = s.bpm) ∧
    (((tick sr (some data) wall s).2.beat.fired = true ∧ 0 ≤ s.lastBeatTime ∧
        wall - s.lastBeatTime < 2) →
      (tick sr (some data) wall s).1.beatIntervals =
        beatIntervalsNext s.beatIntervals (wall - s.lastBeatTime) ∧
      (2 ≤ (tick sr (some data) wall s).1.beatIntervals.length →
        (tick sr (some data) wall s).1.bpm =
          jsRound (60 / ((tick sr (some data) wall s).1.beatIntervals.sum /
            ((tick sr (some data) wall s).1.beatIntervals.length : ℚ)))) ∧
      ((tick sr (some data) wall s).1.beatIntervals.length < 2 →
        (tick sr (some data) wall s).1.bpm = s.bpm)) ∧
    ((tickStates 160 halfSecondSeq initState 3).beatIntervals = [1/2, 1/2] ∧
     (tickStates 160 halfSecondSeq initState 3).bpm = 120 ∧
     119 ≤ (tickStates 160 halfSecondSeq initState 3).bpm ∧
     (tickStates 160 halfSecondSeq initState 3).bpm ≤ 121) := by
  refine ⟨?_, ?_, by with_unfolding_all decide⟩
  · rintro (hc | hc | hc)
    · exact beatUpdate_unrec_not_fired s.rollingBass s.lastBeatTime s.beatIntervals
        s.bpm (bandAvg sr data .bass) wall hc
    · exact beatUpdate_unrec_first s.rollingBass s.lastBeatTime s.beatIntervals
        s.bpm (bandAvg sr data .bass) wall hc
    · exact beatUpdate_unrec_gap s.rollingBass s.lastBeatTime s.beatIntervals
        s.bpm (bandAvg sr data .bass) wall hc
  · rintro ⟨hfired, hl, hg⟩
    exact beatUpdate_rec s.rollingBass s.lastBeatTime s.beatIntervals
      s.bpm (bandAvg sr data .bass) wall hfired hl hg

/-- Witness for C8: a tick on a silent frame fires no beat and leaves the gap
ring and BPM unchanged. -/
theorem c8_tempo_tracking_witness :
    (tick 160 (some (List.replicate 8 0)) 0 initState).2.beat.fired = false ∧
    (tick 160 (some (List.replicate 8 0)) 0 initState).1.beatIntervals =
      initState.beatIntervals ∧
    (tick 160 (some (List.replicate 8 0)) 0 initState).1.bpm = initState.bpm := by
  refine ⟨by with_unfolding_all decide, ?_⟩
  exact (c8_tempo_tracking 160 0 (List.replicate 8 0) initState).1
    (Or.inl (by with_unfolding_all decide))

/- ────────────────────────────────────────────────────────────────────────────
   Helper lemmas for the classifier
   ──────────────────────────────────────────────────────────────────────────── -/

namespace Profile

theorem sat_nonneg (x : ℚ) : 0 ≤ sat x := le_max_left 0 _

theorem rawScores_nonneg (r : RollingStats) (p : ProfileType) : 0 ≤ rawScores r p := by
  cases p <;> exact sat_nonneg _

theorem scoreTotal_eq (r : RollingStats) :
    scoreTotal r = rawScores r .heavy + rawScores r .ambient + rawScores r .rhythmic +
      rawScores r .acoustic + rawScores r .chaotic := by
  simp [scoreTotal, PROFILE_KEYS]

theorem ambient_pos (r : RollingStats) (hod : r.onsetDensity < 1) (hfl : r.flux < 1) :
    0 < rawScores r .ambient := by
  have hx : 0 < (1 - r.onsetDensity) * (1 - r.flux) * (95/100) := by
    apply mul_pos (mul_pos (by linarith) (by linarith))
    norm_num
  simp only [rawScores, sat]
  exact lt_max_iff.mpr (Or.inr (lt_min one_pos hx))

theorem scoreTotal_pos (r : RollingStats) (hod : r.onsetDensity < 1)
    (hfl : r.flux < 1) : 0 < scoreTotal r := by
  rw [scoreTotal_eq]
  have h1 := rawScores_nonneg r .heavy
  have h3 := rawScores_nonneg r .rhythmic
  have h4 := rawScores_nonneg r .acoustic
  have h5 := rawScores_nonneg r .chaotic
  have h2 := ambient_pos r hod hfl
  linarith

theorem totalOr1_eq (r : RollingStats) (h : 0 < scoreTotal r) :
    totalOr1 r = scoreTotal r := by
  unfold totalOr1
  rw [if_neg (ne_of_gt h)]

theorem wsum_weightsNext (w tw : ProfileWeights) (α : ℚ) :
    wsum (weightsNext w tw α) = wsum w + (wsum tw - wsum w) * α := by
  simp only [wsum, weightsNext]
  ring

theorem wsum_targetWeights (r : RollingStats) (h : 0 < scoreTotal r) :
    wsum (targetWeights r) = 1 := by
  simp only [wsum, targetWeights, totalOr1_eq r h]
  rw [div_add_div_same, div_add_div_same, div_add_div_same, div_add_div_same,
    ← scoreTotal_eq]
  exact div_self (ne_of_gt h)

theorem targetWeights_nonneg (r : RollingStats) (h : 0 < scoreTotal r) :
    ∀ p, 0 ≤ (targetWeights r).get p := by
  intro p
  cases p <;>
    simp only [targetWeights, ProfileWeights.get, totalOr1_eq r h] <;>
    exact div_nonneg (rawScores_nonneg r _) (le_of_lt h)

theorem ema_lt_one (old target α : ℚ) (hold : old < 1) (htar : target ≤ 1)
    (hα0 : 0 < α) (hα1 : α < 1) : old + (target - old) * α < 1 := by
  nlinarith [mul_pos (by linarith : (0:ℚ) < 1 - old) (by linarith : (0:ℚ) < 1 - α),
    mul_le_mul_of_nonneg_right htar (le_of_lt hα0)]

theorem ema_nonneg (old target α : ℚ) (hold : 0 ≤ old) (htar : 0 ≤ target)
    (hα0 : 0 ≤ α) (hα1 : α ≤ 1) : 0 ≤ old + (target - old) * α := by
  nlinarith [mul_nonneg hold (by linarith : (0:ℚ) ≤ 1 - α), mul_nonneg htar hα0]

theorem update_Inv (frame : LiveAnalysisFrame) (dt : ℚ) (s : ClassifierState)
    (hInv : Inv s) (hfl : frame.flux ≤ 1) (hod : frame.onsetDensity ≤ 1)
    (hdt : 0 < dt) : Inv (update frame dt s).1 := by
  obtain ⟨hsum, ⟨hw1, hw2, hw3, hw4, hw5⟩, hrod, hrfl⟩ := hInv
  by_cases ha : frame.bass > 0 ∨ frame.subBass > 0
  case neg =>
    simp only [update, if_neg ha]
    exact ⟨hsum, ⟨hw1, hw2, hw3, hw4, hw5⟩, hrod, hrfl⟩
  case pos =>
  have hαS0 : 0 < min (4/100 : ℚ) (dt / 5) := lt_min (by norm_num) (by positivity)
  have hαS1 : min (4/100 : ℚ) (dt / 5) < 1 :=
    lt_of_le_of_lt (min_le_left _ _) (by norm_num)
  have hαF0 : 0 < min (15/100 : ℚ) (dt / (3/2)) := lt_min (by norm_num) (by positivity)
  have hαF1 : min (15/100 : ℚ) (dt / (3/2)) < 1 :=
    lt_of_le_of_lt (min_le_left _ _) (by norm_num)
  have hαB0 : 0 < min (2/100 : ℚ) (dt / (5/2)) := lt_min (by norm_num) (by positivity)
  have hαB1 : min (2/100 : ℚ) (dt / (5/2)) ≤ 1 :=
    le_trans (min_le_left _ _) (by norm_num)
  have hrod' : (rollingNext frame dt s.rolling).onsetDensity < 1 := by
    show s.rolling.onsetDensity +
      (frame.onsetDensity - s.rolling.onsetDensity) * min (4/100) (dt / 5) < 1
    exact ema_lt_one _ _ _ hrod hod hαS0 hαS1
  have hrfl' : (rollingNext frame dt s.rolling).flux < 1 := by
    show s.rolling.flux + (frame.flux - s.rolling.flux) * min (15/100) (dt / (3/2)) < 1
    exact ema_lt_one _ _ _ hrfl hfl hαF0 hαF1
  have htot : 0 < scoreTotal (rollingNext frame dt s.rolling) :=
    scoreTotal_pos _ hrod' hrfl'
  have htw1 : wsum (targetWeights (rollingNext frame dt s.rolling)) = 1 :=
    wsum_targetWeights _ htot
  have htwn := targetWeights_nonneg _ htot
  simp only [update, if_pos ha, Inv]
  refine ⟨?_, ⟨?_, ?_, ?_, ?_, ?_⟩, hrod', hrfl'⟩
  · rw [wsum_weightsNext, hsum, htw1]
    ring
  · exact ema_nonneg _ _ _ hw1 (htwn .heavy) (le_of_lt hαB0) hαB1
  · exact ema_nonneg _ _ _ hw2 (htwn .ambient) (le_of_lt hαB0) hαB1
  · exact ema_nonneg _ _ _ hw3 (htwn .rhythmic) (le_of_lt hαB0) hαB1
  · exact ema_nonneg _ _ _ hw4 (htwn .acoustic) (le_of_lt hαB0) hαB1
  · exact ema_nonneg _ _ _ hw5 (htwn .chaotic) (le_of_lt hαB0) hαB1

theorem Inv_initClassifier : Inv initClassifier := by
  refine ⟨?_, ⟨?_, ?_, ?_, ?_, ?_⟩, ?_, ?_⟩ <;>
    norm_num [wsum, initClassifier, initWeights]

end Profile

/- ────────────────────────────────────────────────────────────────────────────
   Claim theorems for the classifier
   ──────────────────────────────────────────────────────────────────────────── -/

open Profile

/-- C2 (amended): at the rolled scalars bassRatio 3, onsetDensity 0.6,
flux 0.5, centroid 0.2, noisiness 0.1, the raw score of heavy is maximal
(saturated at 1.0) but tied with acoustic (also 1.0), and once the weights
have fully converged to the normalized scores the reported dominant archetype
is acoustic, because the arg-max reduce keeps the accumulator only on a
strict comparison and so resolves ties toward the later key. -/
theorem c2_heavy_scenario :
    (∀ p ∈ PROFILE_KEYS, rawScores c2Rolling p ≤ rawScores c2Rolling .heavy) ∧
    rawScores c2Rolling .heavy = 1 ∧ rawScores c2Rolling .acoustic = 1 ∧
    (paramsFromWeights (targetWeights c2Rolling)).dominant = .acoustic := by
  with_unfolding_all decide

/-- Witness for C2: the maximality conjunct applied at the rhythmic key. -/
theorem c2_heavy_scenario_witness :
    rawScores c2Rolling ProfileType.rhythmic ≤ rawScores c2Rolling ProfileType.heavy :=
  c2_heavy_scenario.1 ProfileType.rhythmic (by with_unfolding_all decide)

/-- C2 counterexample: at the scenario scalars the acoustic raw score equals
the heavy raw score, and the dominant archetype reported after convergence is
not heavy. -/
theorem c2_counterexample :
    rawScores c2Rolling .acoustic = rawScores c2Rolling .heavy ∧
    (paramsFromWeights (targetWeights c2Rolling)).dominant ≠ ProfileType.heavy := by
  with_unfolding_all decide

/-- C4: starting from the initial state (ambient weight 1, all others 0),
after every update call on frames whose documented 0-1 fields are in range and
with positive dt, the five profile weights are non-negative and sum to 1
within one millionth. -/
theorem c4_weights_normalized (inputs : List (LiveAnalysisFrame × ℚ))
    (hv : ∀ p ∈ inputs, ValidInput p) :
    ∀ k, (0 ≤ (runClassifier (inputs.take k)).weights.heavy ∧
      0 ≤ (runClassifier (inputs.take k)).weights.ambient ∧
      0 ≤ (runClassifier (inputs.take k)).weights.rhythmic ∧
      0 ≤ (runClassifier (inputs.take k)).weights.acoustic ∧
      0 ≤ (runClassifier (inputs.take k)).weights.chaotic) ∧
      |wsum (runClassifier (inputs.take k)).weights - 1| ≤ 1/1000000 := by
  have hfold : ∀ (l : List (LiveAnalysisFrame × ℚ)) (s : ClassifierState), Inv s →
      (∀ p ∈ l, ValidInput p) →
      Inv (l.foldl (fun s p => (update p.1 p.2 s).1) s) := by
    intro l
    induction l with
    | nil => intro s hs _; exact hs
    | cons p rest ih =>
      intro s hs hv'
      have hp := hv' p (by simp)
      simp only [List.foldl_cons]
      exact ih _ (update_Inv p.1 p.2 s hs hp.1 hp.2.1 hp.2.2)
        (fun q hq => hv' q (by simp [hq]))
  intro k
  have hk : Inv (runClassifier (inputs.take k)) :=
    hfold (inputs.take k) initClassifier Inv_initClassifier
      (fun p hp => hv p (List.take_subset k inputs hp))
  obtain ⟨hsum, ⟨h1, h2, h3, h4, h5⟩, -, -⟩ := hk
  refine ⟨⟨h1, h2, h3, h4, h5⟩, ?_⟩
  rw [hsum]
  norm_num

/-- Witness for C4: a single valid frame keeps the weights a distribution. -/
theorem c4_weights_normalized_witness :
    (∀ p ∈ [(c4Frame, (1/60 : ℚ))], ValidInput p) ∧
    |wsum (runClassifier ([(c4Frame, (1/60 : ℚ))].take 1)).weights - 1| ≤ 1/1000000 := by
  have hv : ∀ p ∈ [(c4Frame, (1/60 : ℚ))], ValidInput p := by
    intro p hp
    simp only [List.mem_singleton] at hp
    subst hp
    refine ⟨by norm_num [c4Frame], by norm_num [c4Frame], by norm_num⟩
  exact ⟨hv, (c4_weights_normalized [(c4Frame, (1/60 : ℚ))] hv 1).2⟩

/-- C9: a frame with zero bass and zero sub-bass energy is a no-op - update
returns the previous visual parameters and leaves the entire classifier state
(rolling stats, weights, smoothed parameters) unchanged. -/
theorem c9_no_audio_noop (frame : LiveAnalysisFrame) (dt : ℚ) (s : ClassifierState)
    (hb : frame.bass = 0) (hsb : frame.subBass = 0) :
    update frame dt s = (s, s.params) := by
  unfold update
  rw [if_neg]
  rw [hb, hsb]
  simp

/-- Witness for C9: a concrete bass-free frame leaves the fresh state intact. -/
theorem c9_no_audio_noop_witness :
    update c9Frame (1/60) initClassifier = (initClassifier, initClassifier.params) :=
  c9_no_audio_noop c9Frame (1/60) initClassifier rfl rfl

/- ────────────────────────────────────────────────────────────────────────────
   Helper lemmas for the mood palette
   ──────────────────────────────────────────────────────────────────────────── -/

namespace Mood

theorem hueRaw_bounds (c : RGBc)
    (hne : max c.r (max c.g c.b) ≠ min c.r (min c.g c.b)) :
    0 ≤ hueRaw c (max c.r (max c.g c.b) - min c.r (min c.g c.b)) ∧
    hueRaw c (max c.r (max c.g c.b) - min c.r (min c.g c.b)) < 6 := by
  have hra : c.r ≤ max c.r (max c.g c.b) := le_max_left _ _
  have hga : c.g ≤ max c.r (max c.g c.b) :=
    le_trans (le_max_left _ _) (le_max_right _ _)
  have hba : c.b ≤ max c.r (max c.g c.b) :=
    le_trans (le_max_right _ _) (le_max_right _ _)
  have hri : min c.r (min c.g c.b) ≤ c.r := min_le_left _ _
  have hgi : min c.r (min c.g c.b) ≤ c.g :=
    le_trans (min_le_right _ _) (min_le_left _ _)
  have hbi : min c.r (min c.g c.b) ≤ c.b :=
    le_trans (min_le_right _ _) (min_le_right _ _)
  have hd : 0 < max c.r (max c.g c.b) - min c.r (min c.g c.b) := by
    have := lt_of_le_of_ne (le_trans hri hra) (Ne.symm hne)
    linarith
  unfold hueRaw
  split_ifs with h1 h2 h3
  · have hq1 : (-1 : ℚ) ≤
        (c.g - c.b) / (max c.r (max c.g c.b) - min c.r (min c.g c.b)) := by
      rw [le_div_iff₀ hd]
      linarith
    have hq2 : (c.g - c.b) / (max c.r (max c.g c.b) - min c.r (min c.g c.b)) < 0 :=
      div_neg_of_neg_of_pos (by linarith) hd
    constructor <;> linarith
  · have hq1 : 0 ≤ (c.g - c.b) / (max c.r (max c.g c.b) - min c.r (min c.g c.b)) :=
      div_nonneg (by linarith) (le_of_lt hd)
    have hq2 : (c.g - c.b) / (max c.r (max c.g c.b) - min c.r (min c.g c.b)) ≤ 1 := by
      rw [div_le_one hd]
      linarith
    constructor <;> linarith
  · have hq1 : (-1 : ℚ) ≤
        (c.b - c.r) / (max c.r (max c.g c.b) - min c.r (min c.g c.b)) := by
      rw [le_div_iff₀ hd]
      linarith
    have hq2 : (c.b - c.r) / (max c.r (max c.g c.b) - min c.r (min c.g c.b)) ≤ 1 := by
      rw [div_le_one hd]
      linarith
    constructor <;> linarith
  · have hq1 : (-1 : ℚ) ≤
        (c.r - c.g) / (max c.r (max c.g c.b) - min c.r (min c.g c.b)) := by
      rw [le_div_iff₀ hd]
      linarith
    have hq2 : (c.r - c.g) / (max c.r (max c.g c.b) - min c.r (min c.g c.b)) ≤ 1 := by
      rw [div_le_one hd]
      linarith
    constructor <;> linarith

theorem hsl_h_range (c : RGBc) : 0 ≤ (rgbToHsl c).h ∧ (rgbToHsl c).h < 1 := by
  by_cases heq : max c.r (max c.g c.b) = min c.r (min c.g c.b)
  · simp only [rgbToHsl]
    rw [if_pos heq]
    exact ⟨le_refl 0, one_pos⟩
  · have hb := hueRaw_bounds c heq
    simp only [rgbToHsl]
    rw [if_neg heq]
    constructor
    · exact div_nonneg hb.1 (by norm_num)
    · show hueRaw c (max c.r (max c.g c.b) - min c.r (min c.g c.b)) / 6 < 1
      rw [div_lt_one (by norm_num : (0:ℚ) < 6)]
      linarith [hb.2]

theorem hsl_s_range (c : RGBc) (h : in01 c) :
    0 ≤ (rgbToHsl c).s ∧ (rgbToHsl c).s ≤ 1 := by
  obtain ⟨hr0, hr1, hg0, hg1, hb0, hb1⟩ := h
  have hmax1 : max c.r (max c.g c.b) ≤ 1 := max_le hr1 (max_le hg1 hb1)
  have hmin0 : 0 ≤ min c.r (min c.g c.b) := le_min hr0 (le_min hg0 hb0)
  have hmm : min c.r (min c.g c.b) ≤ max c.r (max c.g c.b) :=
    le_trans (min_le_left _ _) (le_max_left _ _)
  by_cases heq : max c.r (max c.g c.b) = min c.r (min c.g c.b)
  · simp only [rgbToHsl]
    rw [if_pos heq]
    exact ⟨le_refl 0, by norm_num⟩
  · have hlt : min c.r (min c.g c.b) < max c.r (max c.g c.b) :=
      lt_of_le_of_ne hmm (Ne.symm heq)
    simp only [rgbToHsl]
    rw [if_neg heq]
    show 0 ≤ (if 1/2 < (max c.r (max c.g c.b) + min c.r (min c.g c.b)) / 2 then
        (max c.r (max c.g c.b) - min c.r (min c.g c.b)) /
          (2 - max c.r (max c.g c.b) - min c.r (min c.g c.b))
      else (max c.r (max c.g c.b) - min c.r (min c.g c.b)) /
          (max c.r (max c.g c.b) + min c.r (min c.g c.b))) ∧ _
    split_ifs with hl
    · have hden : (0:ℚ) < 2 - max c.r (max c.g c.b) - min c.r (min c.g c.b) := by
        linarith
      constructor
      · exact div_nonneg (by linarith) (le_of_lt hden)
      · show (max c.r (max c.g c.b) - min c.r (min c.g c.b)) /
          (2 - max c.r (max c.g c.b) - min c.r (min c.g c.b)) ≤ 1
        rw [div_le_one hden]
        linarith
    · have hden : (0:ℚ) < max c.r (max c.g c.b) + min c.r (min c.g c.b) := by
        linarith
      constructor
      · exact div_nonneg (by linarith) (le_of_lt hden)
      · show (max c.r (max c.g c.b) - min c.r (min c.g c.b)) /
          (max c.r (max c.g c.b) + min c.r (min c.g c.b)) ≤ 1
        rw [div_le_one hden]
        linarith

theorem hsl_l_range (c : RGBc) (h : in01 c) :
    0 ≤ (rgbToHsl c).l ∧ (rgbToHsl c).l ≤ 1 := by
  obtain ⟨hr0, hr1, hg0, hg1, hb0, hb1⟩ := h
  have hmax1 : max c.r (max c.g c.b) ≤ 1 := max_le hr1 (max_le hg1 hb1)
  have hmin0 : 0 ≤ min c.r (min c.g c.b) := le_min hr0 (le_min hg0 hb0)
  have hmax0 : (0:ℚ) ≤ max c.r (max c.g c.b) := le_trans hr0 (le_max_left _ _)
  have hmin1 : min c.r (min c.g c.b) ≤ 1 := le_trans (min_le_left _ _) hr1
  simp only [rgbToHsl]
  split_ifs with heq <;>
    exact ⟨div_nonneg (by linarith) (by norm_num),
      by show (max c.r (max c.g c.b) + min c.r (min c.g c.b)) / 2 ≤ 1
         rw [div_le_one (by norm_num : (0:ℚ) < 2)]
         linarith⟩

theorem hueDelta_bound (bH mH : ℚ) (hb0 : 0 ≤ bH) (hb1 : bH < 1)
    (hm0 : 0 ≤ mH) (hm1 : mH < 1) : |hueDelta bH mH| ≤ 1/2 := by
  simp only [hueDelta]
  split_ifs with h1 h2 h3 <;> rw [abs_le] <;> constructor <;> linarith

end Mood

/- ────────────────────────────────────────────────────────────────────────────
   Claim theorems for the mood palette
   ──────────────────────────────────────────────────────────────────────────── -/

open Mood

/-- C3 (amended): for every base colour and mood colour with channels in
[0, 1], modulate changes the colour only through the HSL blend - hue moves by
exactly 40 percent of the shortest arc (never more than 0.2 of the hue
circle), saturation by exactly 70 percent of the difference, lightness by
exactly 30 percent; hence the base keeps 60 percent of the hue channel and
70 percent of the lightness channel, but only 30 percent of the saturation
channel - the claimed 60 percent floor fails there. -/
theorem c3_palette_modulation (base mood : RGBc) (hb : in01 base) (hm : in01 mood) :
    modulateColor base mood =
      hslToRgb (moodBlendHSL (rgbToHsl base) (rgbToHsl mood)).h
        (moodBlendHSL (rgbToHsl base) (rgbToHsl mood)).s
        (moodBlendHSL (rgbToHsl base) (rgbToHsl mood)).l ∧
    (moodBlendHSL (rgbToHsl base) (rgbToHsl mood)).h - (rgbToHsl base).h =
      hueDelta (rgbToHsl base).h (rgbToHsl mood).h * (4/10) ∧
    |hueDelta (rgbToHsl base).h (rgbToHsl mood).h| ≤ 1/2 ∧
    |(moodBlendHSL (rgbToHsl base) (rgbToHsl mood)).h - (rgbToHsl base).h| ≤ 1/5 ∧
    (moodBlendHSL (rgbToHsl base) (rgbToHsl mood)).s - (rgbToHsl base).s =
      ((rgbToHsl mood).s - (rgbToHsl base).s) * (7/10) ∧
    |(moodBlendHSL (rgbToHsl base) (rgbToHsl mood)).s - (rgbToHsl base).s| ≤
      (7/10) * |(rgbToHsl mood).s - (rgbToHsl base).s| ∧
    (moodBlendHSL (rgbToHsl base) (rgbToHsl mood)).l - (rgbToHsl base).l =
      ((rgbToHsl mood).l - (rgbToHsl base).l) * (3/10) ∧
    |(moodBlendHSL (rgbToHsl base) (rgbToHsl mood)).l - (rgbToHsl base).l| ≤
      (3/10) * |(rgbToHsl mood).l - (rgbToHsl base).l| := by
  have hbh := hsl_h_range base
  have hmh := hsl_h_range mood
  have hbs := hsl_s_range base hb
  have hms := hsl_s_range mood hm
  have hbl := hsl_l_range base hb
  have hml := hsl_l_range mood hm
  have hdel := hueDelta_bound (rgbToHsl base).h (rgbToHsl mood).h
    hbh.1 hbh.2 hmh.1 hmh.2
  have hheq : (moodBlendHSL (rgbToHsl base) (rgbToHsl mood)).h - (rgbToHsl base).h =
      hueDelta (rgbToHsl base).h (rgbToHsl mood).h * (4/10) := by
    show (rgbToHsl base).h + hueDelta (rgbToHsl base).h (rgbToHsl mood).h * (4/10) -
      (rgbToHsl base).h = _
    ring
  have hseq : (moodBlendHSL (rgbToHsl base) (rgbToHsl mood)).s =
      (rgbToHsl base).s + ((rgbToHsl mood).s - (rgbToHsl base).s) * (7/10) := by
    show min 1 (max 0 ((rgbToHsl base).s + ((rgbToHsl mood).s - (rgbToHsl base).s) *
      (7/10))) = _
    rw [max_eq_right (by linarith [hbs.1, hms.1]), min_eq_right (by linarith [hbs.2, hms.2])]
  have hleq : (moodBlendHSL (rgbToHsl base) (rgbToHsl mood)).l =
      (rgbToHsl base).l + ((rgbToHsl mood).l - (rgbToHsl base).l) * (3/10) := by
    show min 1 (max 0 ((rgbToHsl base).l + ((rgbToHsl mood).l - (rgbToHsl base).l) *
      (3/10))) = _
    rw [max_eq_right (by linarith [hbl.1, hml.1]), min_eq_right (by linarith [hbl.2, hml.2])]
  refine ⟨rfl, hheq, hdel, ?_, ?_, ?_, ?_, ?_⟩
  · rw [hheq, abs_mul, abs_of_nonneg (by norm_num : (0:ℚ) ≤ 4/10)]
    nlinarith [abs_nonneg (hueDelta (rgbToHsl base).h (rgbToHsl mood).h)]
  · rw [hseq]
    ring
  · rw [hseq]
    have : (rgbToHsl base).s + ((rgbToHsl mood).s - (rgbToHsl base).s) * (7/10) -
        (rgbToHsl base).s = ((rgbToHsl mood).s - (rgbToHsl base).s) * (7/10) := by ring
    rw [this, abs_mul, abs_of_nonneg (by norm_num : (0:ℚ) ≤ 7/10), mul_comm]
  · rw [hleq]
    ring
  · rw [hleq]
    have : (rgbToHsl base).l + ((rgbToHsl mood).l - (rgbToHsl base).l) * (3/10) -
        (rgbToHsl base).l = ((rgbToHsl mood).l - (rgbToHsl base).l) * (3/10) := by ring
    rw [this, abs_mul, abs_of_nonneg (by norm_num : (0:ℚ) ≤ 3/10), mul_comm]

/-- Witness for C3: the hue-shift equation at the uniform gray base against
the first initial mood colour. -/
theorem c3_palette_modulation_witness :
    in01 grayBase ∧ in01 (initialCurrent 0) ∧
    (moodBlendHSL (rgbToHsl grayBase) (rgbToHsl (initialCurrent 0))).h -
      (rgbToHsl grayBase).h =
      hueDelta (rgbToHsl grayBase).h (rgbToHsl (initialCurrent 0)).h * (4/10) :=
  ⟨by with_unfolding_all decide, by with_unfolding_all decide,
   (c3_palette_modulation grayBase (initialCurrent 0)
      (by with_unfolding_all decide) (by with_unfolding_all decide)).2.1⟩

/-- C3 counterexample: with the gray base palette colour and the reachable
initial mood colour of slot 0, the saturation channel of the blended colour
moves by more than 40 percent of the base-to-mood gap, so the base palette
does not retain 60 percent weight on every channel (it keeps only 30 percent
of saturation). -/
theorem c3_counterexample :
    (4/10) * |(rgbToHsl (initialCurrent 0)).s - (rgbToHsl grayBase).s| <
      |(moodBlendHSL (rgbToHsl grayBase) (rgbToHsl (initialCurrent 0))).s -
        (rgbToHsl grayBase).s| := by
  with_unfolding_all decide

end SpotifyViz
